import Mathlib

/-!
Shallow embedding of the OpenAPI scoring engine
(`src/scoring/scoring-engine.ts`, types from `src/types/index.ts`).

Modelling conventions:
* JavaScript numbers are modelled as `ℚ` (all engine arithmetic is exact
  on small integers and decimals).
* Optional (possibly `undefined`) fields are `Option _`; a JS truthiness
  test `!s` on an optional string is `truthy` below (absent and `""` are
  both falsy).
* JS objects used as string-keyed maps are association lists
  `List (String × _)` in key-insertion order; `Object.keys` is `map Prod.fst`.
* JS string scanning (`split('/')`, `startsWith`, `includes('_')`,
  `endsWith('/')`) is modelled over `String.data` character lists so that
  every definition evaluates inside the kernel.
-/

namespace OpenAPIScorer

/-- Issue severity (`'low' | 'medium' | 'high' | 'critical'`). -/
inductive Severity where
| low
| medium
| high
| critical
deriving DecidableEq

/-- One detected defect (interface `Issue`). -/
structure Issue where
path : String
operation : Option String
location : String
description : String
severity : Severity
suggestion : String
criterion : String
deriving DecidableEq

/-- Letter grade. -/
inductive Grade where
| A
| B
| C
| D
| F
deriving DecidableEq

/-- A media-type entry (value of a `content` map): we keep only the fields
the engine reads, as truthiness flags. `exampleVal` models the `example`
key (`example` is a Lean keyword). -/
structure MediaObj where
schema : Bool
exampleVal : Bool
examples : Bool
deriving DecidableEq

/-- A request body or response object as the engine sees it: direct
`schema` / `example` / `examples` truthiness plus an optional `content`
map whose values may themselves be absent (the engine guards with `?.`). -/
structure Payload where
schema : Bool
exampleVal : Bool
examples : Bool
content : Option (List (String × Option MediaObj))
deriving DecidableEq

/-- An operation parameter: the engine reads `name` and `description`. -/
structure Param where
name : String
description : Option String
deriving DecidableEq

/-- A security requirement object (contents are never inspected, only
array length). -/
abbrev SecurityRequirement := List (String × List String)

/-- Operation (interface `Operation`). `responses` is optional here even
though the TS type requires it: the engine itself guards most accesses,
and the structural-validity claims quantify over its presence. -/
structure Operation where
tags : Option (List String)
summary : Option String
description : Option String
parameters : Option (List Param)
requestBody : Option Payload
responses : Option (List (String × Option Payload))
security : Option (List SecurityRequirement)
deriving DecidableEq

/-- Path item: at most one operation per HTTP method (interface `PathItem`). -/
structure PathItem where
get : Option Operation
put : Option Operation
post : Option Operation
delete : Option Operation
options : Option Operation
head : Option Operation
patch : Option Operation
trace : Option Operation
deriving DecidableEq

/-- A reusable schema as `validateSchemaTypes` sees it: the discriminating
keywords as truthiness flags and the `type` string. `ref` models `$ref`. -/
structure SchemaObj where
type : Option String
ref : Bool
allOf : Bool
oneOf : Bool
anyOf : Bool
properties : Bool
additionalProperties : Bool
deriving DecidableEq

/-- Components block (only the parts the engine reads). -/
structure Components where
schemas : Option (List (String × SchemaObj))
securitySchemes : Option (List (String × String))
deriving DecidableEq

/-- `info` block. Required by the TS type; `title` and `version` are
strings (possibly empty, which is falsy in JS). -/
structure Info where
title : String
version : String
description : Option String
deriving DecidableEq

/-- A server entry (only array length is inspected). -/
structure Server where
url : String
deriving DecidableEq

/-- A tag declaration. -/
structure Tag where
name : String
description : Option String
deriving DecidableEq

/-- The document (interface `OpenAPISpec`). `paths` is optional because
the engine defensively tests `!spec.paths` / `spec.paths || {}`. -/
structure OpenAPISpec where
info : Info
servers : Option (List Server)
paths : Option (List (String × PathItem))
components : Option Components
security : Option (List SecurityRequirement)
tags : Option (List Tag)
deriving DecidableEq

/-- Per-criterion result (interface `ScoreResult`). -/
structure ScoreResult where
criterion : String
score : ℚ
maxScore : ℚ
weight : ℚ
weightedScore : ℚ
issues : List Issue
deriving DecidableEq

/-- Severity-bucketed issue counts. -/
structure Summary where
criticalIssues : Nat
highIssues : Nat
mediumIssues : Nat
lowIssues : Nat
deriving DecidableEq

/-- Derived spec info. -/
structure SpecInfo where
title : String
version : String
pathCount : Nat
operationCount : Nat
deriving DecidableEq

/-- The full report (interface `ScoringReport`). -/
structure ScoringReport where
overallScore : ℚ
grade : Grade
maxScore : ℚ
results : List ScoreResult
totalIssues : Nat
summary : Summary
timestamp : String
specInfo : SpecInfo
deriving DecidableEq

/-- The seven criterion weights (`ScoringConfig.weights`). -/
structure Weights where
schemaTypes : ℚ
documentation : ℚ
pathsOperations : ℚ
responseCodes : ℚ
examples : ℚ
security : ℚ
bestPractices : ℚ
deriving DecidableEq

/-- The hard-coded default weights from the constructor. -/
def defaultWeights : Weights :=
{ schemaTypes := 20
, documentation := 20
, pathsOperations := 15
, responseCodes := 15
, examples := 10
, security := 10
, bestPractices := 10 }

/-- Runtime shape of a `Partial<ScoringConfig>` argument: the `weights`
key is either absent or (per the TS type) a complete weights record.
The unused `criteria` key is omitted: the engine never reads it after
construction. -/
structure PartialScoringConfig where
weights : Option Weights
deriving DecidableEq

/-- The constructor merge `{ criteria..., weights: defaults, ...config }`:
a top-level (shallow) spread, so a supplied `weights` object replaces the
default one wholesale and the defaults apply only when it is absent. -/
def mkEngineConfig (config : Option PartialScoringConfig) : Weights :=
match config with
| none => defaultWeights
| some c => c.weights.getD defaultWeights

/-- JS truthiness of an optional string (`undefined` and `""` are falsy). -/
def truthy (s : Option String) : Bool :=
s.getD "" != ""

/-- `String.prototype.split('/')` on a character list. -/
def splitSlash : List Char → List (List Char)
| [] => [[]]
| c :: cs =>
  match splitSlash cs with
  | [] => [[]]
  | s :: rest => if c = '/' then [] :: s :: rest else (c :: s) :: rest

/-- `path.split('/').filter(s => s)`: the non-empty segments of a path. -/
def pathSegments (p : String) : List (List Char) :=
(splitSlash p.data).filter (fun s => !s.isEmpty)

/-- `seg.startsWith('{')` for a segment. -/
def startsWithBrace (s : List Char) : Bool :=
s.head? == some '\x7b'

/-- `code.startsWith(c)` for a one-character needle. -/
def startsWithChar (c : Char) (s : String) : Bool :=
s.data.head? == some c

/-- `path.includes('_')`. -/
def containsUnderscore (p : String) : Bool :=
p.data.contains '_'

/-- `path.endsWith('/')`. -/
def endsWithSlash (p : String) : Bool :=
p.data.getLast? == some '/'

/-- The fixed severity-to-penalty table inside `calculateDeduction`. -/
def severityPenalty : Severity → ℚ
| Severity.critical => 5
| Severity.high => 3
| Severity.medium => 2
| Severity.low => 1

/-- `calculateDeduction`: sum of the per-issue penalties. -/
def calculateDeduction (issues : List Issue) : ℚ :=
issues.foldl (fun sum i => sum + severityPenalty i.severity) 0

/-- `calculateGrade`. -/
def calculateGrade (score : ℚ) : Grade :=
if score ≥ 90 then Grade.A
else if score ≥ 80 then Grade.B
else if score ≥ 70 then Grade.C
else if score ≥ 60 then Grade.D
else Grade.F

/-- `Math.round(x * 100) / 100` (round half toward positive infinity). -/
def round2 (x : ℚ) : ℚ :=
((⌊x * 100 + 1 / 2⌋ : ℤ) : ℚ) / 100

/-- Look up a method name on a path item. -/
def PathItem.getOp (item : PathItem) : String → Option Operation
| "get" => item.get
| "put" => item.put
| "post" => item.post
| "delete" => item.delete
| "options" => item.options
| "head" => item.head
| "patch" => item.patch
| "trace" => item.trace
| _ => none

/-- The 5-method list the per-operation checks iterate over. -/
def methods5 : List String :=
["get", "post", "put", "patch", "delete"]

/-- The 8-method list used by `countOperations`. -/
def methods8 : List String :=
["get", "post", "put", "patch", "delete", "options", "head", "trace"]

/-! ### Schema & Types -/

/-- `!spec.components?.schemas || Object.keys(...).length === 0`. -/
def noReusableSchemas (spec : OpenAPISpec) : Bool :=
match spec.components with
| none => true
| some c =>
  match c.schemas with
  | none => true
  | some s => s.isEmpty

def noSchemasIssue : Issue :=
{ path := "/components/schemas"
, operation := none
, location := "components"
, description := "No reusable schemas defined in components"
, severity := Severity.medium
, suggestion := "Define reusable schemas in components/schemas to promote consistency"
, criterion := "Schema & Types" }

/-- `validateSchemaTypes(schemaName, schema, issues)`. -/
def validateSchemaTypes (schemaName : String) (schema : SchemaObj) : List Issue :=
(if !truthy schema.type && !schema.ref && !schema.allOf && !schema.oneOf && !schema.anyOf then
  [{ path := "/components/schemas/" ++ schemaName
   , operation := none
   , location := "schema"
   , description := "Schema \"" ++ schemaName ++ "\" lacks type definition"
   , severity := Severity.medium
   , suggestion := "Specify a type (object, string, number, etc.) for the schema"
   , criterion := "Schema & Types" }]
 else [])
++
(if schema.type == some "object" && !schema.properties && !schema.additionalProperties then
  [{ path := "/components/schemas/" ++ schemaName
   , operation := none
   , location := "schema"
   , description := "Object schema \"" ++ schemaName ++ "\" has no defined properties"
   , severity := Severity.medium
   , suggestion := "Define properties for object schemas or use additionalProperties"
   , criterion := "Schema & Types" }]
 else [])

/-- The `if (spec.components?.schemas) { for ... validateSchemaTypes }` loop. -/
def schemaDefinitionIssues (spec : OpenAPISpec) : List Issue :=
match spec.components with
| none => []
| some c =>
  match c.schemas with
  | none => []
  | some schemas => schemas.flatMap (fun e => validateSchemaTypes e.1 e.2)

/-- `hasSchemaReference(obj)` (the `!obj` guard is the `Option`). -/
def hasSchemaReference : Option Payload → Bool
| none => false
| some obj =>
  obj.schema
  || (match obj.content with
      | none => false
      | some cts => cts.any (fun ct => (ct.2.map MediaObj.schema).getD false))

def requestBodySchemaIssue (path m : String) : Issue :=
{ path := path
, operation := some m
, location := "requestBody"
, description := "Request body lacks proper schema definition"
, severity := Severity.medium
, suggestion := "Define schema for request body content"
, criterion := "Schema & Types" }

def responseSchemaIssue (path m statusCode : String) : Issue :=
{ path := path
, operation := some m
, location := "responses." ++ statusCode
, description := "Response " ++ statusCode ++ " lacks proper schema definition"
, severity := Severity.medium
, suggestion := "Define schema for response content"
, criterion := "Schema & Types" }

/-- Per-operation part of `checkOperationSchemas`. -/
def operationSchemaIssues (path m : String) (op : Operation) : List Issue :=
(if op.requestBody.isSome && !hasSchemaReference op.requestBody then
  [requestBodySchemaIssue path m]
 else [])
++
(match op.responses with
 | none => []
 | some rs =>
   rs.flatMap (fun e =>
     if e.2.isSome && !hasSchemaReference e.2 then [responseSchemaIssue path m e.1] else []))

/-- `checkOperationSchemas(spec, issues)`. -/
def checkOperationSchemas (spec : OpenAPISpec) : List Issue :=
match spec.paths with
| none => []
| some paths =>
  paths.flatMap (fun e =>
    methods5.flatMap (fun m =>
      match e.2.getOp m with
      | none => []
      | some op => operationSchemaIssues e.1 m op))

/-- `scoreSchemaTypes`. -/
def scoreSchemaTypes (w : Weights) (spec : OpenAPISpec) : ScoreResult :=
let issues : List Issue :=
  (if noReusableSchemas spec then [noSchemasIssue] else [])
  ++ schemaDefinitionIssues spec
  ++ checkOperationSchemas spec
let score1 : ℚ := if noReusableSchemas spec then w.schemaTypes - 5 else w.schemaTypes
let score : ℚ := max 0 (score1 - calculateDeduction issues)
{ criterion := "Schema & Types"
, score := score
, maxScore := w.schemaTypes
, weight := w.schemaTypes
, weightedScore := score
, issues := issues }

/-! ### Descriptions & Documentation -/

/-- `!spec.info.description`. -/
def infoDescriptionMissing (spec : OpenAPISpec) : Bool :=
!truthy spec.info.description

def infoDescriptionIssue : Issue :=
{ path := "/info"
, operation := none
, location := "info.description"
, description := "API description is missing"
, severity := Severity.medium
, suggestion := "Add a comprehensive description of your API in info.description"
, criterion := "Descriptions & Documentation" }

def operationDocIssue (path m : String) : Issue :=
{ path := path
, operation := some m
, location := "operation"
, description := "Operation lacks summary and description"
, severity := Severity.medium
, suggestion := "Add summary and/or description to explain the operation"
, criterion := "Descriptions & Documentation" }

def paramDocIssue (path m paramName : String) : Issue :=
{ path := path
, operation := some m
, location := "parameters." ++ paramName
, description := "Parameter \"" ++ paramName ++ "\" lacks description"
, severity := Severity.low
, suggestion := "Add description to explain the parameter purpose"
, criterion := "Descriptions & Documentation" }

/-- Per-operation part of `checkPathDocumentation`. -/
def operationDocIssues (path m : String) (op : Operation) : List Issue :=
(if !truthy op.summary && !truthy op.description then [operationDocIssue path m] else [])
++
((op.parameters.getD []).flatMap (fun p =>
  if !truthy p.description then [paramDocIssue path m p.name] else []))

/-- `checkPathDocumentation(path, pathItem, issues)`: note the method list
is the 5-element one, not the full 8-method set. -/
def checkPathDocumentation (path : String) (item : PathItem) : List Issue :=
methods5.flatMap (fun m =>
  match item.getOp m with
  | none => []
  | some op => operationDocIssues path m op)

/-- `scoreDocumentation`. -/
def scoreDocumentation (w : Weights) (spec : OpenAPISpec) : ScoreResult :=
let issues : List Issue :=
  (if infoDescriptionMissing spec then [infoDescriptionIssue] else [])
  ++ (match spec.paths with
      | none => []
      | some paths => paths.flatMap (fun e => checkPathDocumentation e.1 e.2))
let score1 : ℚ := if infoDescriptionMissing spec then w.documentation - 2 else w.documentation
let score : ℚ := max 0 (score1 - calculateDeduction issues)
{ criterion := "Descriptions & Documentation"
, score := score
, maxScore := w.documentation
, weight := w.documentation
, weightedScore := score
, issues := issues }

/-! ### Paths & Operations -/

def noPathsIssue : Issue :=
{ path := "/paths"
, operation := none
, location := "paths"
, description := "No paths defined"
, severity := Severity.critical
, suggestion := "Define at least one path in your API specification"
, criterion := "Paths & Operations" }

def underscoreIssue (path : String) : Issue :=
{ path := path
, operation := none
, location := "path"
, description := "Path uses underscores, consider using hyphens for consistency"
, severity := Severity.low
, suggestion := "Use kebab-case (hyphens) instead of snake_case (underscores)"
, criterion := "Paths & Operations" }

def trailingSlashIssue (path : String) : Issue :=
{ path := path
, operation := none
, location := "path"
, description := "Path has trailing slash"
, severity := Severity.low
, suggestion := "Remove trailing slash from path"
, criterion := "Paths & Operations" }

/-- `checkPathNaming(paths, issues)`. -/
def checkPathNaming (paths : List (String × PathItem)) : List Issue :=
(paths.map Prod.fst).flatMap (fun p =>
  (if containsUnderscore p then [underscoreIssue p] else [])
  ++ (if endsWithSlash p && p != "/" then [trailingSlashIssue p] else []))

/-- `Object.keys(pathItem).filter(k => [5 methods].includes(k)).length`:
the number of the five mutating/reading methods present on a path item. -/
def methodCount5 (item : PathItem) : Nat :=
(methods5.filter (fun m => (item.getOp m).isSome)).length

/-- One step of building the `resources` map: append `p` to the group of
`resource`, creating the group at the end on first sight (JS `Map`
preserves insertion order). -/
def insertResource (acc : List (String × List String)) (resource p : String) :
    List (String × List String) :=
if acc.any (fun g => g.1 == resource) then
  acc.map (fun g => if g.1 == resource then (g.1, g.2 ++ [p]) else g)
else acc ++ [(resource, [p])]

/-- The trailing non-parameter segment of a path, if any: the "resource". -/
def resourceName (p : String) : Option (List Char) :=
((splitSlash p.data).filter (fun s => !s.isEmpty && !startsWithBrace s)).getLast?

/-- The grouping loop of `checkCrudConsistency`. -/
def groupResources : List (String × List String) → List String → List (String × List String)
| acc, [] => acc
| acc, p :: rest =>
  match resourceName p with
  | none => groupResources acc rest
  | some r => groupResources (insertResource acc (String.mk r) p) rest

def crudIssue (path resource : String) : Issue :=
{ path := path
, operation := none
, location := "operations"
, description := "Resource \"" ++ resource ++ "\" only has one operation"
, severity := Severity.low
, suggestion := "Consider implementing full CRUD operations for resources"
, criterion := "Paths & Operations" }

/-- The CRUD check for one resource group: a group holding exactly one
path looks up `paths[path]` (always present: group members are path keys)
and flags single-method path items. -/
def crudGroupIssues (paths : List (String × PathItem)) (g : String × List String) : List Issue :=
match g.2 with
| [p] =>
  match paths.find? (fun e => e.1 == p) with
  | none => []
  | some e => if methodCount5 e.2 = 1 then [crudIssue p g.1] else []
| _ => []

/-- `checkCrudConsistency(paths, issues)`. -/
def checkCrudConsistency (paths : List (String × PathItem)) : List Issue :=
(groupResources [] (paths.map Prod.fst)).flatMap (crudGroupIssues paths)

/-- `pathsOverlap` inner loop: scan segment pairs, rejecting at the first
position where both segments are literal and different. -/
def overlapScan : List (List Char) → List (List Char) → Bool
| a :: as, b :: bs =>
  if a != b && !startsWithBrace a && !startsWithBrace b then false
  else overlapScan as bs
| _, _ => true

/-- `pathsOverlap(path1, path2)`. -/
def pathsOverlap (p1 p2 : String) : Bool :=
let s1 := pathSegments p1
let s2 := pathSegments p2
if s1.length ≠ s2.length then false
else overlapScan s1 s2

def overlapIssue (a b : String) : Issue :=
{ path := a
, operation := none
, location := "path"
, description := "Path overlaps with " ++ b
, severity := Severity.medium
, suggestion := "Ensure paths are distinct and non-overlapping"
, criterion := "Paths & Operations" }

/-- The `i < j` double loop of `checkOverlappingPaths`: all ordered key
pairs with the first component occurring strictly earlier. -/
def pairsAfter : List String → List (String × String)
| [] => []
| x :: xs => (xs.map (fun y => (x, y))) ++ pairsAfter xs

/-- `checkOverlappingPaths(paths, issues)`. -/
def checkOverlappingPaths (paths : List (String × PathItem)) : List Issue :=
(pairsAfter (paths.map Prod.fst)).flatMap (fun q =>
  if pathsOverlap q.1 q.2 then [overlapIssue q.1 q.2] else [])

/-- `scorePathsOperations` (with the no-paths short-circuit). -/
def scorePathsOperations (w : Weights) (spec : OpenAPISpec) : ScoreResult :=
match spec.paths with
| none =>
  { criterion := "Paths & Operations"
  , score := 0
  , maxScore := w.pathsOperations
  , weight := w.pathsOperations
  , weightedScore := 0
  , issues := [noPathsIssue] }
| some paths =>
  let issues : List Issue :=
    checkPathNaming paths ++ checkCrudConsistency paths ++ checkOverlappingPaths paths
  let score : ℚ := max 0 (w.pathsOperations - calculateDeduction issues)
  { criterion := "Paths & Operations"
  , score := score
  , maxScore := w.pathsOperations
  , weight := w.pathsOperations
  , weightedScore := score
  , issues := issues }

/-! ### Response Codes -/

def noSuccessIssue (path m : String) : Issue :=
{ path := path
, operation := some m
, location := "responses"
, description := "No success response (2xx) defined"
, severity := Severity.high
, suggestion := "Define at least one 2xx success response"
, criterion := "Response Codes" }

def noErrorIssue (path m : String) : Issue :=
{ path := path
, operation := some m
, location := "responses"
, description := "No error responses (4xx/5xx) defined"
, severity := Severity.medium
, suggestion := "Define appropriate error responses (400, 404, 500, etc.)"
, criterion := "Response Codes" }

def postConventionIssue (path : String) : Issue :=
{ path := path
, operation := some "post"
, location := "responses"
, description := "POST operation should typically return 201 (Created) or 200"
, severity := Severity.low
, suggestion := "Consider using 201 for resource creation"
, criterion := "Response Codes" }

def deleteConventionIssue (path : String) : Issue :=
{ path := path
, operation := some "delete"
, location := "responses"
, description := "DELETE operation should typically return 204 (No Content) or 200"
, severity := Severity.low
, suggestion := "Consider using 204 for successful deletion with no content"
, criterion := "Response Codes" }

/-- The `switch (method)` of `checkMethodSpecificResponses`, on the
response-code key list. -/
def methodConventionIssues (path m : String) (responseCodes : List String) : List Issue :=
if m == "post" then
  if !responseCodes.contains "201" && !responseCodes.contains "200" then
    [postConventionIssue path]
  else []
else if m == "delete" then
  if !responseCodes.contains "204" && !responseCodes.contains "200" then
    [deleteConventionIssue path]
  else []
else []

/-- `checkMethodSpecificResponses(path, method, operation, issues)`: reads
`Object.keys(operation.responses)` without a guard (callers have already
checked the field). -/
def checkMethodSpecificResponses (path m : String) (op : Operation) : List Issue :=
methodConventionIssues path m ((op.responses.getD []).map Prod.fst)

/-- The main (2xx / 4xx-5xx) checks of `checkOperationResponses` for one
operation whose `responses` keys are `responseCodes`. -/
def responsePresenceIssues (path m : String) (responseCodes : List String) : List Issue :=
let hasSuccess := responseCodes.any (fun code => startsWithChar '2' code || code == "default")
let hasClientError := responseCodes.any (fun code => startsWithChar '4' code)
let hasServerError := responseCodes.any (fun code => startsWithChar '5' code)
(if !hasSuccess then [noSuccessIssue path m] else [])
++ (if !hasClientError && !hasServerError then [noErrorIssue path m] else [])

/-- The response-code issues contributed by one method slot of
`checkOperationResponses` (empty when the operation or its `responses`
field is absent — the source guards with `operation && operation.responses`). -/
def respBlock (path : String) (item : PathItem) (m : String) : List Issue :=
match item.getOp m with
| none => []
| some op =>
  match op.responses with
  | none => []
  | some rs =>
    responsePresenceIssues path m (rs.map Prod.fst)
    ++ checkMethodSpecificResponses path m op

/-- `checkOperationResponses(path, pathItem, issues)`. -/
def checkOperationResponses (path : String) (item : PathItem) : List Issue :=
methods5.flatMap (respBlock path item)

/-- Result assembly shared by `scoreResponseCodes` and its exception-aware
variant. -/
def mkResponseCodesResult (w : Weights) (issues : List Issue) : ScoreResult :=
let score : ℚ := max 0 (w.responseCodes - calculateDeduction issues)
{ criterion := "Response Codes"
, score := score
, maxScore := w.responseCodes
, weight := w.responseCodes
, weightedScore := score
, issues := issues }

/-- `scoreResponseCodes`. -/
def scoreResponseCodes (w : Weights) (spec : OpenAPISpec) : ScoreResult :=
mkResponseCodesResult w
  (match spec.paths with
   | none => []
   | some paths => paths.flatMap (fun e => checkOperationResponses e.1 e.2))

/-! ### Examples & Samples -/

/-- `hasExamplesInContent(obj)`. -/
def hasExamplesInContent : Option Payload → Bool
| none => false
| some obj =>
  obj.exampleVal || obj.examples
  || (match obj.content with
      | none => false
      | some cts =>
        cts.any (fun ct => (ct.2.map (fun mo => mo.exampleVal || mo.examples)).getD false))

def missingExamplesIssue (path m : String) : Issue :=
{ path := path
, operation := some m
, location := "examples"
, description := "Operation lacks examples"
, severity := Severity.low
, suggestion := "Add examples to request/response bodies for better documentation"
, criterion := "Examples & Samples" }

/-- Per-operation part of `checkExamples`. -/
def operationExampleIssues (path m : String) (op : Operation) : List Issue :=
let fromBody : Bool :=
  match op.requestBody with
  | none => false
  | some _ => hasExamplesInContent op.requestBody
let hasExamples : Bool :=
  fromBody
  || (match op.responses with
      | none => false
      | some rs => rs.any (fun e => hasExamplesInContent e.2))
if !hasExamples then [missingExamplesIssue path m] else []

/-- `checkExamples(path, pathItem, issues)`. -/
def checkExamples (path : String) (item : PathItem) : List Issue :=
methods5.flatMap (fun m =>
  match item.getOp m with
  | none => []
  | some op => operationExampleIssues path m op)

/-- `scoreExamples`. -/
def scoreExamples (w : Weights) (spec : OpenAPISpec) : ScoreResult :=
let issues : List Issue :=
  match spec.paths with
  | none => []
  | some paths => paths.flatMap (fun e => checkExamples e.1 e.2)
let score : ℚ := max 0 (w.examples - calculateDeduction issues)
{ criterion := "Examples & Samples"
, score := score
, maxScore := w.examples
, weight := w.examples
, weightedScore := score
, issues := issues }

/-! ### Security -/

/-- `!spec.components?.securitySchemes || Object.keys(...).length === 0`. -/
def noSecuritySchemes (spec : OpenAPISpec) : Bool :=
match spec.components with
| none => true
| some c =>
  match c.securitySchemes with
  | none => true
  | some ss => ss.isEmpty

/-- `!spec.security || spec.security.length === 0`. -/
def noGlobalSecurity (spec : OpenAPISpec) : Bool :=
match spec.security with
| none => true
| some g => g.isEmpty

def noSchemesIssue : Issue :=
{ path := "/components/securitySchemes"
, operation := none
, location := "components"
, description := "No security schemes defined"
, severity := Severity.high
, suggestion := "Define appropriate security schemes (OAuth2, API Key, etc.)"
, criterion := "Security" }

def noGlobalSecurityIssue : Issue :=
{ path := "/security"
, operation := none
, location := "root"
, description := "No global security requirements defined"
, severity := Severity.medium
, suggestion := "Define global security requirements or ensure operations have individual security"
, criterion := "Security" }

def operationSecurityIssue (path m : String) : Issue :=
{ path := path
, operation := some m
, location := "security"
, description := "Operation has no security requirements"
, severity := Severity.medium
, suggestion := "Define security requirements for the operation"
, criterion := "Security" }

/-- `checkOperationSecurity(spec, issues)`. -/
def checkOperationSecurity (spec : OpenAPISpec) : List Issue :=
match spec.paths with
| none => []
| some paths =>
  paths.flatMap (fun e =>
    methods5.flatMap (fun m =>
      match e.2.getOp m with
      | none => []
      | some op =>
        let hasGlobalSecurity : Bool :=
          match spec.security with
          | none => false
          | some g => !g.isEmpty
        let hasOperationSecurity : Bool :=
          match op.security with
          | none => false
          | some s => !s.isEmpty
        if !hasGlobalSecurity && !hasOperationSecurity then
          [operationSecurityIssue e.1 m]
        else []))

/-- `scoreSecurity`. -/
def scoreSecurity (w : Weights) (spec : OpenAPISpec) : ScoreResult :=
let issues : List Issue :=
  (if noSecuritySchemes spec then [noSchemesIssue] else [])
  ++ (if noGlobalSecurity spec then [noGlobalSecurityIssue] else [])
  ++ (match spec.paths with
      | none => []
      | some _ => checkOperationSecurity spec)
let score1 : ℚ := if noSecuritySchemes spec then w.security - 5 else w.security
let score2 : ℚ := if noGlobalSecurity spec then score1 - 3 else score1
let score : ℚ := max 0 (score2 - calculateDeduction issues)
{ criterion := "Security"
, score := score
, maxScore := w.security
, weight := w.security
, weightedScore := score
, issues := issues }

/-! ### Best Practices -/

/-- `!spec.info.version || spec.info.version === '1.0.0'`. -/
def defaultLookingVersion (spec : OpenAPISpec) : Bool :=
spec.info.version == "" || spec.info.version == "1.0.0"

/-- `!spec.servers || spec.servers.length === 0`. -/
def noServers (spec : OpenAPISpec) : Bool :=
match spec.servers with
| none => true
| some s => s.isEmpty

def versionIssue : Issue :=
{ path := "/info/version"
, operation := none
, location := "info"
, description := "API version should be meaningful, not default"
, severity := Severity.low
, suggestion := "Use semantic versioning (e.g., 1.2.3) or date-based versioning"
, criterion := "Best Practices" }

def serversIssue : Issue :=
{ path := "/servers"
, operation := none
, location := "root"
, description := "No servers defined"
, severity := Severity.medium
, suggestion := "Define at least one server URL"
, criterion := "Best Practices" }

def undefinedTagIssue (tagName : String) : Issue :=
{ path := "/tags"
, operation := none
, location := "tags"
, description := "Tag \"" ++ tagName ++ "\" is used but not defined"
, severity := Severity.low
, suggestion := "Define all tags in the tags array with descriptions"
, criterion := "Best Practices" }

def untaggedIssue (n : Nat) : Issue :=
{ path := "/paths"
, operation := none
, location := "operations"
, description := toString n ++ " operations are not tagged"
, severity := Severity.low
, suggestion := "Add tags to operations for better organization"
, criterion := "Best Practices" }

def componentsIssue : Issue :=
{ path := "/components"
, operation := none
, location := "components"
, description := "No components defined for reuse"
, severity := Severity.low
, suggestion := "Extract common schemas, responses, and parameters to components"
, criterion := "Best Practices" }

/-- Collect the used tags in first-use order (a JS `Set` iterates in
insertion order). -/
def collectUsedTags (paths : List (String × PathItem)) : List String :=
paths.foldl (fun acc e =>
  methods5.foldl (fun acc m =>
    match e.2.getOp m with
    | none => acc
    | some op =>
      (op.tags.getD []).foldl (fun acc t => if acc.contains t then acc else acc ++ [t]) acc)
    acc) []

/-- `operation && (!operation.tags || operation.tags.length === 0)` count. -/
def countUntaggedOperations (paths : List (String × PathItem)) : Nat :=
paths.foldl (fun n e =>
  methods5.foldl (fun n m =>
    match e.2.getOp m with
    | none => n
    | some op =>
      match op.tags with
      | none => n + 1
      | some ts => if ts.isEmpty then n + 1 else n) n) 0

/-- `checkTagsUsage(spec, issues)`. -/
def checkTagsUsage (spec : OpenAPISpec) : List Issue :=
match spec.paths with
| none => []
| some paths =>
  let definedTags := (spec.tags.getD []).map Tag.name
  let undef :=
    (collectUsedTags paths).flatMap (fun t =>
      if !definedTags.contains t then [undefinedTagIssue t] else [])
  let untagged := countUntaggedOperations paths
  undef ++ (if untagged > 0 then [untaggedIssue untagged] else [])

/-- `scoreBestPractices`. -/
def scoreBestPractices (w : Weights) (spec : OpenAPISpec) : ScoreResult :=
let issues : List Issue :=
  (if defaultLookingVersion spec then [versionIssue] else [])
  ++ (if noServers spec then [serversIssue] else [])
  ++ (match spec.paths with
      | none => []
      | some _ => checkTagsUsage spec)
  ++ (if spec.components.isNone then [componentsIssue] else [])
let score1 : ℚ := if defaultLookingVersion spec then w.bestPractices - 1 else w.bestPractices
let score2 : ℚ := if noServers spec then score1 - 2 else score1
let score : ℚ := max 0 (score2 - calculateDeduction issues)
{ criterion := "Best Practices"
, score := score
, maxScore := w.bestPractices
, weight := w.bestPractices
, weightedScore := score
, issues := issues }

/-! ### Aggregator -/

/-- `countOperations(spec)`. -/
def countOperations (spec : OpenAPISpec) : Nat :=
match spec.paths with
| none => 0
| some paths =>
  paths.foldl (fun n e => n + (methods8.filter (fun m => (e.2.getOp m).isSome)).length) 0

/-- The seven criterion results in evaluation order. -/
def criterionResults (w : Weights) (spec : OpenAPISpec) : List ScoreResult :=
[ scoreSchemaTypes w spec
, scoreDocumentation w spec
, scorePathsOperations w spec
, scoreResponseCodes w spec
, scoreExamples w spec
, scoreSecurity w spec
, scoreBestPractices w spec ]

/-- Report assembly from the criterion results (the tail of `score`);
`timestamp` is the wall-clock string, passed in as a parameter. -/
def buildReport (spec : OpenAPISpec) (timestamp : String) (results : List ScoreResult) :
    ScoringReport :=
let overallScore : ℚ := results.foldl (fun sum r => sum + r.weightedScore) 0
let grade := calculateGrade overallScore
let allIssues := results.flatMap ScoreResult.issues
{ overallScore := round2 overallScore
, grade := grade
, maxScore := 100
, results := results
, totalIssues := allIssues.length
, summary :=
  { criticalIssues := (allIssues.filter (fun i => i.severity = Severity.critical)).length
  , highIssues := (allIssues.filter (fun i => i.severity = Severity.high)).length
  , mediumIssues := (allIssues.filter (fun i => i.severity = Severity.medium)).length
  , lowIssues := (allIssues.filter (fun i => i.severity = Severity.low)).length }
, timestamp := timestamp
, specInfo :=
  { title := if spec.info.title == "" then "Unknown" else spec.info.title
  , version := if spec.info.version == "" then "Unknown" else spec.info.version
  , pathCount := (spec.paths.getD []).length
  , operationCount := countOperations spec } }

/-- `score(spec)`, with the wall-clock timestamp made an explicit input. -/
def score (w : Weights) (spec : OpenAPISpec) (timestamp : String) : ScoringReport :=
buildReport spec timestamp (criterionResults w spec)

/-! ### Exception-aware instrumentation

The TS engine can only raise on a property access of a possibly-`undefined`
value. Two places perform such an access:

* `checkMethodSpecificResponses` reads `Object.keys(operation.responses)`
  without a guard (its callers have checked the field);
* `checkCrudConsistency` reads `Object.keys(pathItem)` for
  `pathItem = paths[path]` without checking the lookup (its keys come from
  `Object.keys(paths)`).

The following `Except`-valued variants make those two access points
explicit `TypeError`s; everything else re-uses the pure definitions. -/

def checkMethodSpecificResponsesE (path m : String) (op : Operation) :
    Except String (List Issue) :=
match op.responses with
| none => Except.error "TypeError: Object.keys called on undefined responses"
| some rs => Except.ok (methodConventionIssues path m (rs.map Prod.fst))

/-- One method slot of the response-code loop, `Except`-valued. -/
def respStepE (path : String) (item : PathItem) (acc : List Issue) (m : String) :
    Except String (List Issue) :=
match item.getOp m with
| none => Except.ok acc
| some op =>
  match op.responses with
  | none => Except.ok acc
  | some rs => do
    let conv ← checkMethodSpecificResponsesE path m op
    Except.ok (acc ++ (responsePresenceIssues path m (rs.map Prod.fst) ++ conv))

def checkOperationResponsesE (path : String) (item : PathItem) :
    Except String (List Issue) :=
methods5.foldlM (respStepE path item) []

def scoreResponseCodesE (w : Weights) (spec : OpenAPISpec) : Except String ScoreResult :=
match spec.paths with
| none => Except.ok (mkResponseCodesResult w [])
| some paths => do
  let issues ← paths.foldlM (fun acc e => do
    let l ← checkOperationResponsesE e.1 e.2
    Except.ok (acc ++ l)) []
  Except.ok (mkResponseCodesResult w issues)

/-- The CRUD check for one group, `Except`-valued: a failed `paths[path]`
lookup is the explicit `TypeError`. -/
def crudGroupStepE (paths : List (String × PathItem)) (acc : List Issue)
    (g : String × List String) : Except String (List Issue) :=
match g.2 with
| [p] =>
  match paths.find? (fun e => e.1 == p) with
  | none => Except.error "TypeError: Object.keys called on undefined pathItem"
  | some e => Except.ok (acc ++ (if methodCount5 e.2 = 1 then [crudIssue p g.1] else []))
| _ => Except.ok acc

def checkCrudConsistencyE (paths : List (String × PathItem)) :
    Except String (List Issue) :=
(groupResources [] (paths.map Prod.fst)).foldlM (crudGroupStepE paths) []

def scorePathsOperationsE (w : Weights) (spec : OpenAPISpec) : Except String ScoreResult :=
match spec.paths with
| none =>
  Except.ok
    { criterion := "Paths & Operations"
    , score := 0
    , maxScore := w.pathsOperations
    , weight := w.pathsOperations
    , weightedScore := 0
    , issues := [noPathsIssue] }
| some paths => do
  let crud ← checkCrudConsistencyE paths
  let issues := checkPathNaming paths ++ crud ++ checkOverlappingPaths paths
  let sc : ℚ := max 0 (w.pathsOperations - calculateDeduction issues)
  Except.ok
    { criterion := "Paths & Operations"
    , score := sc
    , maxScore := w.pathsOperations
    , weight := w.pathsOperations
    , weightedScore := sc
    , issues := issues }

/-- `score` with the two unguarded access points surfaced as `Except`. -/
def scoreE (w : Weights) (spec : OpenAPISpec) (timestamp : String) :
    Except String ScoringReport := do
let r3 ← scorePathsOperationsE w spec
let r4 ← scoreResponseCodesE w spec
Except.ok (buildReport spec timestamp
  [ scoreSchemaTypes w spec
  , scoreDocumentation w spec
  , r3
  , r4
  , scoreExamples w spec
  , scoreSecurity w spec
  , scoreBestPractices w spec ])

/-! ### Claim-side predicates and the immediate (pre-table) deductions -/

/-- The extra amount `scoreSchemaTypes` subtracts directly (`score -= 5`)
before applying the severity table. -/
def schemaImmediateDeduction (spec : OpenAPISpec) : ℚ :=
if noReusableSchemas spec then 5 else 0

/-- The extra amount `scoreDocumentation` subtracts directly (`score -= 2`). -/
def documentationImmediateDeduction (spec : OpenAPISpec) : ℚ :=
if infoDescriptionMissing spec then 2 else 0

/-- The extra amounts `scoreSecurity` subtracts directly (`-= 5`, `-= 3`). -/
def securityImmediateDeduction (spec : OpenAPISpec) : ℚ :=
(if noSecuritySchemes spec then 5 else 0) + (if noGlobalSecurity spec then 3 else 0)

/-- The extra amounts `scoreBestPractices` subtracts directly (`-= 1`, `-= 2`). -/
def bestPracticesImmediateDeduction (spec : OpenAPISpec) : ℚ :=
(if defaultLookingVersion spec then 1 else 0) + (if noServers spec then 2 else 0)

/-- Structural-validity hypothesis of the safety claim: `paths` is an
object. -/
def pathsIsObject (spec : OpenAPISpec) : Bool :=
spec.paths.isSome

/-- Structural-validity hypothesis of the safety claim: every present
operation carries a `responses` mapping. -/
def allOperationsHaveResponses (spec : OpenAPISpec) : Bool :=
match spec.paths with
| none => true
| some paths =>
  paths.all (fun e =>
    methods8.all (fun m =>
      match e.2.getOp m with
      | none => true
      | some op => op.responses.isSome))

/-- Claim hypothesis: an operation has a 2xx-or-`default` status code and
a 4xx-or-5xx status code. -/
def operationResponsesOK (op : Operation) : Bool :=
let codes := (op.responses.getD []).map Prod.fst
codes.any (fun code => startsWithChar '2' code || code == "default")
&& codes.any (fun code => startsWithChar '4' code || startsWithChar '5' code)

/-- Claim hypothesis over a whole document: every present operation passes
`operationResponsesOK`. -/
def allOperationsResponsesOK (spec : OpenAPISpec) : Bool :=
match spec.paths with
| none => true
| some paths =>
  paths.all (fun e =>
    methods8.all (fun m =>
      match e.2.getOp m with
      | none => true
      | some op => operationResponsesOK op))

/-- Amended-claim hypothesis: every POST operation answers 201 or 200 and
every DELETE operation answers 204 or 200. -/
def postDeleteConventionOK (spec : OpenAPISpec) : Bool :=
match spec.paths with
| none => true
| some paths =>
  paths.all (fun e =>
    (match e.2.post with
     | none => true
     | some op =>
       let codes := (op.responses.getD []).map Prod.fst
       codes.contains "201" || codes.contains "200")
    &&
    (match e.2.delete with
     | none => true
     | some op =>
       let codes := (op.responses.getD []).map Prod.fst
       codes.contains "204" || codes.contains "200"))

/-- Picks out the issues the Documentation claim counts: those attached to
a given path, operation method, and severity. -/
def issuePred (path m : String) (s : Severity) : Issue → Bool :=
fun i => decide (i.path = path ∧ i.operation = some m ∧ i.severity = s)

/-- Rank of a grade, for monotonicity statements (F worst, A best). -/
def gradeRank : Grade → Nat
| Grade.F => 0
| Grade.D => 1
| Grade.C => 2
| Grade.B => 3
| Grade.A => 4

/-! ### Concrete documents used by witnesses and counterexamples -/

def emptyPayload : Payload :=
{ schema := false, exampleVal := false, examples := false, content := none }

def plainGetOp : Operation :=
{ tags := none
, summary := none
, description := none
, parameters := none
, requestBody := none
, responses := some [("200", some emptyPayload)]
, security := none }

def plainGetItem : PathItem :=
{ get := some plainGetOp, put := none, post := none, delete := none
, options := none, head := none, patch := none, trace := none }

/-- A document with a present but empty `paths` object. -/
def emptyPathsDoc : OpenAPISpec :=
{ info := { title := "Test", version := "1.0.0", description := none }
, servers := none
, paths := some []
, components := none
, security := none
, tags := none }

/-- A document whose `paths` field is absent. -/
def absentPathsDoc : OpenAPISpec :=
{ info := { title := "Test", version := "1.0.0", description := none }
, servers := none
, paths := none
, components := none
, security := none
, tags := none }

/-- A one-path document with a single GET operation. -/
def oneGetDoc : OpenAPISpec :=
{ info := { title := "T", version := "1.0.0", description := none }
, servers := none
, paths := some [("/users", plainGetItem)]
, components := none
, security := none
, tags := none }

def typedObjectSchema : SchemaObj :=
{ type := some "object"
, ref := false
, allOf := false
, oneOf := false
, anyOf := false
, properties := true
, additionalProperties := false }

/-- Custom weights whose only nonzero entry is fractional: the overall
score is 89.996, which rounds to 90.00 in the report. -/
def fractionalWeights : Weights :=
{ schemaTypes := 89996 / 1000
, documentation := 0
, pathsOperations := 0
, responseCodes := 0
, examples := 0
, security := 0
, bestPractices := 0 }

/-- A document that earns the full Schema & Types score and produces no
issue in any zero-weight criterion that could change its score. -/
def fullSchemaDoc : OpenAPISpec :=
{ info := { title := "T", version := "2.0.0", description := some "d" }
, servers := some [{ url := "https://api.example.com" }]
, paths := some []
, components := some { schemas := some [("User", typedObjectSchema)], securitySchemes := none }
, security := none
, tags := none }

/-- A POST operation answering 202 and 400: well-covered (2xx and 4xx)
but violating the POST-201/200 convention check. -/
def post202Op : Operation :=
{ tags := none
, summary := some "create"
, description := some "creates"
, parameters := none
, requestBody := none
, responses := some [("202", some emptyPayload), ("400", some emptyPayload)]
, security := none }

def post202Item : PathItem :=
{ get := none, put := none, post := some post202Op, delete := none
, options := none, head := none, patch := none, trace := none }

def post202Doc : OpenAPISpec :=
{ info := { title := "T", version := "2.0.0", description := some "d" }
, servers := none
, paths := some [("/tasks", post202Item)]
, components := none
, security := none
, tags := none }

/-- An undocumented OPTIONS operation with an undescribed parameter. -/
def bareOptionsOp : Operation :=
{ tags := none
, summary := none
, description := none
, parameters := some [{ name := "p", description := none }]
, requestBody := none
, responses := some [("200", some emptyPayload)]
, security := none }

def bareOptionsItem : PathItem :=
{ get := none, put := none, post := none, delete := none
, options := some bareOptionsOp, head := none, patch := none, trace := none }

def bareOptionsDoc : OpenAPISpec :=
{ info := { title := "T", version := "2.0.0", description := some "documented" }
, servers := none
, paths := some [("/things", bareOptionsItem)]
, components := none
, security := none
, tags := none }

/-- An undocumented GET operation with an undescribed parameter (same
shape as `bareOptionsOp` but under a checked method). -/
def bareGetOp : Operation :=
{ tags := none
, summary := none
, description := none
, parameters := some [{ name := "p", description := none }]
, requestBody := none
, responses := some [("200", some emptyPayload)]
, security := none }

def bareGetItem : PathItem :=
{ get := some bareGetOp, put := none, post := none, delete := none
, options := none, head := none, patch := none, trace := none }

def bareGetDoc : OpenAPISpec :=
{ info := { title := "T", version := "2.0.0", description := some "documented" }
, servers := none
, paths := some [("/things", bareGetItem)]
, components := none
, security := none
, tags := none }

/-- A GET operation with full response-code coverage. -/
def coveredGetOp : Operation :=
{ tags := none
, summary := some "list"
, description := some "lists"
, parameters := none
, requestBody := none
, responses := some [("200", some emptyPayload), ("404", some emptyPayload)]
, security := none }

def coveredGetItem : PathItem :=
{ get := some coveredGetOp, put := none, post := none, delete := none
, options := none, head := none, patch := none, trace := none }

def coveredGetDoc : OpenAPISpec :=
{ info := { title := "T", version := "2.0.0", description := some "d" }
, servers := none
, paths := some [("/users", coveredGetItem)]
, components := none
, security := none
, tags := none }

/-- Two path templates that only differ in a parameter segment. -/
def overlapPathsList : List (String × PathItem) :=
[("/users/{id}", plainGetItem), ("/users/{userId}", plainGetItem)]

end OpenAPIScorer

namespace OpenAPIScorer

/-! ### Generic helper lemmas -/

lemma foldl_add_sum {α : Type} (f : α → ℚ) (l : List α) :
    ∀ a : ℚ, List.foldl (fun s x => s + f x) a l = a + (l.map f).sum := by
induction l with
| nil => intro a; simp
| cons x xs ih => intro a; simp [ih, add_assoc]

lemma calculateDeduction_eq (issues : List Issue) :
    calculateDeduction issues = (issues.map (fun i => severityPenalty i.severity)).sum := by
unfold calculateDeduction
rw [show (fun (sum : ℚ) (i : Issue) => sum + severityPenalty i.severity)
      = fun (sum : ℚ) (i : Issue) => sum + (fun j : Issue => severityPenalty j.severity) i from rfl]
rw [foldl_add_sum]
simp

lemma severityPenalty_nonneg (s : Severity) : 0 ≤ severityPenalty s := by
cases s <;> norm_num [severityPenalty]

lemma calculateDeduction_nonneg (issues : List Issue) : 0 ≤ calculateDeduction issues := by
rw [calculateDeduction_eq]
apply List.sum_nonneg
intro x hx
obtain ⟨i, _, rfl⟩ := List.mem_map.mp hx
exact severityPenalty_nonneg _

lemma overall_foldl (results : List ScoreResult) :
    List.foldl (fun sum r => sum + r.weightedScore) 0 results
      = (results.map ScoreResult.weightedScore).sum := by
rw [show (fun (sum : ℚ) (r : ScoreResult) => sum + r.weightedScore)
      = fun (sum : ℚ) (r : ScoreResult) => sum + ScoreResult.weightedScore r from rfl]
rw [foldl_add_sum]
simp

/-! ### Claim C9: determinism and timestamp independence -/

/-- C9: two `score` calls on the same document agree on every report field
except the timestamp; in this pure embedding of the engine (which never
writes to the document) this is timestamp-independence of all other
fields. -/
theorem score_timestamp_independent (w : Weights) (spec : OpenAPISpec) (t1 t2 : String) :
    (score w spec t1).overallScore = (score w spec t2).overallScore
    ∧ (score w spec t1).grade = (score w spec t2).grade
    ∧ (score w spec t1).results = (score w spec t2).results
    ∧ (score w spec t1).totalIssues = (score w spec t2).totalIssues
    ∧ (score w spec t1).summary = (score w spec t2).summary
    ∧ (score w spec t1).specInfo = (score w spec t2).specInfo :=
⟨rfl, rfl, rfl, rfl, rfl, rfl⟩

/-! ### Claim C4: configuration merge and no renormalization -/

/-- C4: an absent configuration (or one without a `weights` key) yields the
documented defaults; a supplied weights record is used verbatim; the seven
results carry exactly the configured weights and the overall score is the
plain (rounded) sum of the weighted scores — no renormalization to 100. -/
theorem config_weights_spec (w : Weights) :
    mkEngineConfig none = defaultWeights
    ∧ mkEngineConfig (some { weights := none }) = defaultWeights
    ∧ mkEngineConfig (some { weights := some w }) = w
    ∧ defaultWeights =
        { schemaTypes := 20, documentation := 20, pathsOperations := 15, responseCodes := 15
        , examples := 10, security := 10, bestPractices := 10 }
    ∧ (∀ (spec : OpenAPISpec) (ts : String),
        (score w spec ts).results.map (fun r => (r.criterion, r.weight))
          = [ ("Schema & Types", w.schemaTypes)
            , ("Descriptions & Documentation", w.documentation)
            , ("Paths & Operations", w.pathsOperations)
            , ("Response Codes", w.responseCodes)
            , ("Examples & Samples", w.examples)
            , ("Security", w.security)
            , ("Best Practices", w.bestPractices) ])
    ∧ (∀ (spec : OpenAPISpec) (ts : String),
        (score w spec ts).overallScore
          = round2 (((score w spec ts).results.map ScoreResult.weightedScore).sum)) := by
refine ⟨rfl, rfl, rfl, rfl, ?_, ?_⟩
· intro spec ts
  cases h : spec.paths <;>
    simp [score, buildReport, criterionResults, scoreSchemaTypes, scoreDocumentation,
      scorePathsOperations, scoreResponseCodes, mkResponseCodesResult, scoreExamples,
      scoreSecurity, scoreBestPractices, h]
· intro spec ts
  show round2 (List.foldl (fun sum r => sum + r.weightedScore) 0 (criterionResults w spec)) = _
  rw [overall_foldl]
  rfl

/-! ### Claim C3: the zero-paths short-circuit -/

/-- C3 counterexample: a document whose `paths` object is present but
empty has zero paths, yet Paths & Operations scores the full default
weight 15 with an empty issue list (the short-circuit only fires on an
absent `paths` field). -/
theorem paths_empty_counterexample :
    (emptyPathsDoc.paths.getD []).length = 0
    ∧ (scorePathsOperations defaultWeights emptyPathsDoc).issues = []
    ∧ (scorePathsOperations defaultWeights emptyPathsDoc).score = 15 := by
refine ⟨rfl, by decide, ?_⟩
have h1 : checkPathNaming [] = [] := by decide
have h2 : checkCrudConsistency [] = [] := by decide
have h3 : checkOverlappingPaths [] = [] := by decide
simp only [scorePathsOperations, emptyPathsDoc, h1, h2, h3]
norm_num [calculateDeduction, defaultWeights]

/-- C3 amended: for every document whose `paths` field is absent, the
criterion scores 0 (also as its weighted score) and its issue list is
exactly the one critical no-paths issue, with no further checks run. -/
theorem paths_absent_short_circuit (w : Weights) (spec : OpenAPISpec)
    (h : spec.paths = none) :
    (scorePathsOperations w spec).score = 0
    ∧ (scorePathsOperations w spec).weightedScore = 0
    ∧ (scorePathsOperations w spec).issues = [noPathsIssue]
    ∧ noPathsIssue.severity = Severity.critical := by
simp [scorePathsOperations, h, noPathsIssue]

/-- Witness for the amended C3 at a concrete document. -/
theorem paths_absent_short_circuit_witness :
    absentPathsDoc.paths = none
    ∧ ((scorePathsOperations defaultWeights absentPathsDoc).score = 0
       ∧ (scorePathsOperations defaultWeights absentPathsDoc).weightedScore = 0
       ∧ (scorePathsOperations defaultWeights absentPathsDoc).issues = [noPathsIssue]
       ∧ noPathsIssue.severity = Severity.critical) :=
⟨rfl, paths_absent_short_circuit defaultWeights absentPathsDoc rfl⟩

/-! ### Claim C1: per-criterion deduction arithmetic -/

/-- C1 counterexample: on a document with no reusable schemas the Schema &
Types score is 13, not the `max(0, weight − tableDeduction) = 18` the
claim predicts — the evaluator also subtracts a direct 5 on top of the
table penalty of its medium issue. -/
theorem deduction_counterexample :
    ¬ ((scoreSchemaTypes defaultWeights emptyPathsDoc).score
        = max 0 (defaultWeights.schemaTypes
            - calculateDeduction (scoreSchemaTypes defaultWeights emptyPathsDoc).issues)) := by
have hiss : (scoreSchemaTypes defaultWeights emptyPathsDoc).issues = [noSchemasIssue] := by decide
have hsc : (scoreSchemaTypes defaultWeights emptyPathsDoc).score = 13 := by
  have h1 : noReusableSchemas emptyPathsDoc = true := by decide
  have h2 : schemaDefinitionIssues emptyPathsDoc = [] := by decide
  have h3 : checkOperationSchemas emptyPathsDoc = [] := by decide
  simp only [scoreSchemaTypes, h1, h2, h3, if_true]
  norm_num [calculateDeduction, List.foldl, severityPenalty, noSchemasIssue, defaultWeights]
rw [hsc, hiss]
norm_num [calculateDeduction, List.foldl, severityPenalty, noSchemasIssue, defaultWeights]

/-- C1 amended: each criterion's final score is
`max(0, weight − immediate − tableDeduction)`, where `tableDeduction` is
the severity-table sum over the criterion's issues and `immediate` is the
criterion's fixed direct subtraction (5 for missing reusable schemas, 2
for a missing API description, 5 + 3 for the two global security findings,
1 + 2 for default version / missing servers, 0 for the remaining three
criteria), except that Paths & Operations short-circuits to 0 when `paths`
is absent. -/
theorem deduction_amended (w : Weights) (spec : OpenAPISpec) :
    (scoreSchemaTypes w spec).score
      = max 0 (w.schemaTypes - schemaImmediateDeduction spec
          - calculateDeduction (scoreSchemaTypes w spec).issues)
    ∧ (scoreDocumentation w spec).score
      = max 0 (w.documentation - documentationImmediateDeduction spec
          - calculateDeduction (scoreDocumentation w spec).issues)
    ∧ (scorePathsOperations w spec).score
      = (match spec.paths with
         | none => (0 : ℚ)
         | some _ => max 0 (w.pathsOperations
             - calculateDeduction (scorePathsOperations w spec).issues))
    ∧ (scoreResponseCodes w spec).score
      = max 0 (w.responseCodes - calculateDeduction (scoreResponseCodes w spec).issues)
    ∧ (scoreExamples w spec).score
      = max 0 (w.examples - calculateDeduction (scoreExamples w spec).issues)
    ∧ (scoreSecurity w spec).score
      = max 0 (w.security - securityImmediateDeduction spec
          - calculateDeduction (scoreSecurity w spec).issues)
    ∧ (scoreBestPractices w spec).score
      = max 0 (w.bestPractices - bestPracticesImmediateDeduction spec
          - calculateDeduction (scoreBestPractices w spec).issues) := by
refine ⟨?_, ?_, ?_, ?_, ?_, ?_, ?_⟩
· simp only [scoreSchemaTypes, schemaImmediateDeduction]
  by_cases h : noReusableSchemas spec <;> simp [h]
· simp only [scoreDocumentation, documentationImmediateDeduction]
  by_cases h : infoDescriptionMissing spec <;> simp [h]
· cases h : spec.paths <;> simp [scorePathsOperations, h]
· rfl
· rfl
· simp only [scoreSecurity, securityImmediateDeduction]
  by_cases h1 : noSecuritySchemes spec <;> by_cases h2 : noGlobalSecurity spec <;>
    (simp [h1, h2]; try (congr 1; ring))
· simp only [scoreBestPractices, bestPracticesImmediateDeduction]
  by_cases h1 : defaultLookingVersion spec <;> by_cases h2 : noServers spec <;>
    (simp [h1, h2]; try (congr 1; ring))

/-! ### Claim C7: grade bands -/

lemma gradeA_iff (s : ℚ) : calculateGrade s = Grade.A ↔ 90 ≤ s := by
unfold calculateGrade
constructor
· intro h
  split_ifs at h with h1 h2 h3 h4
  all_goals simp_all
· intro hl
  rw [if_pos (by linarith : s ≥ 90)]

lemma gradeB_iff (s : ℚ) : calculateGrade s = Grade.B ↔ 80 ≤ s ∧ s < 90 := by
unfold calculateGrade
constructor
· intro h
  split_ifs at h with h1 h2 h3 h4
  all_goals simp_all
· rintro ⟨hl, hu⟩
  rw [if_neg (by linarith : ¬ s ≥ 90), if_pos (by linarith : s ≥ 80)]

lemma gradeC_iff (s : ℚ) : calculateGrade s = Grade.C ↔ 70 ≤ s ∧ s < 80 := by
unfold calculateGrade
constructor
· intro h
  split_ifs at h with h1 h2 h3 h4
  all_goals simp_all
· rintro ⟨hl, hu⟩
  rw [if_neg (by linarith : ¬ s ≥ 90), if_neg (by linarith : ¬ s ≥ 80),
    if_pos (by linarith : s ≥ 70)]

lemma gradeD_iff (s : ℚ) : calculateGrade s = Grade.D ↔ 60 ≤ s ∧ s < 70 := by
unfold calculateGrade
constructor
· intro h
  split_ifs at h with h1 h2 h3 h4
  all_goals simp_all
· rintro ⟨hl, hu⟩
  rw [if_neg (by linarith : ¬ s ≥ 90), if_neg (by linarith : ¬ s ≥ 80),
    if_neg (by linarith : ¬ s ≥ 70), if_pos (by linarith : s ≥ 60)]

lemma gradeF_iff (s : ℚ) : calculateGrade s = Grade.F ↔ s < 60 := by
unfold calculateGrade
constructor
· intro h
  split_ifs at h with h1 h2 h3 h4
  all_goals simp_all
· intro hu
  rw [if_neg (by linarith : ¬ s ≥ 90), if_neg (by linarith : ¬ s ≥ 80),
    if_neg (by linarith : ¬ s ≥ 70), if_neg (by linarith : ¬ s ≥ 60)]

lemma gradeRank_mono {s t : ℚ} (h : s ≤ t) :
    gradeRank (calculateGrade s) ≤ gradeRank (calculateGrade t) := by
unfold calculateGrade
split_ifs <;> simp [gradeRank] <;> linarith

lemma report_grade_eq (w : Weights) (spec : OpenAPISpec) (ts : String) :
    (score w spec ts).grade
      = calculateGrade (((score w spec ts).results.map ScoreResult.weightedScore).sum) := by
show calculateGrade (List.foldl (fun sum r => sum + r.weightedScore) 0 (criterionResults w spec)) = _
rw [overall_foldl]
rfl

/-- C7 counterexample: with weights whose only nonzero entry is the
fractional 89.996, a document earning the full Schema & Types score gets
a report with `overallScore = 90` (two-decimal rounding of 89.996) but
grade `B`, because the grade is computed from the unrounded sum — so the
band `score ≥ 90 → A` fails on the reported `overallScore`, which is
therefore not a pure function of the reported score. -/
theorem grade_band_counterexample :
    (score fractionalWeights fullSchemaDoc "ts").overallScore = 90
    ∧ (score fractionalWeights fullSchemaDoc "ts").grade = Grade.B := by
have hsum : List.foldl (fun (sum : ℚ) (r : ScoreResult) => sum + r.weightedScore) 0
    (criterionResults fractionalWeights fullSchemaDoc) = 89996 / 1000 := by
  simp only [criterionResults, scoreSchemaTypes, scoreDocumentation, scorePathsOperations,
    scoreResponseCodes, mkResponseCodesResult, scoreExamples, scoreSecurity, scoreBestPractices]
  norm_num [show noReusableSchemas fullSchemaDoc = false from by decide,
    show infoDescriptionMissing fullSchemaDoc = false from by decide,
    show noSecuritySchemes fullSchemaDoc = true from by decide,
    show noGlobalSecurity fullSchemaDoc = true from by decide,
    show defaultLookingVersion fullSchemaDoc = false from by decide,
    show noServers fullSchemaDoc = false from by decide,
    show schemaDefinitionIssues fullSchemaDoc = [] from by decide,
    show checkOperationSchemas fullSchemaDoc = [] from by decide,
    show fullSchemaDoc.paths = some [] from rfl,
    show checkPathNaming [] = [] from by decide,
    show checkCrudConsistency [] = [] from by decide,
    show checkOverlappingPaths [] = [] from by decide,
    show checkOperationSecurity fullSchemaDoc = [] from by decide,
    show checkTagsUsage fullSchemaDoc = [] from by decide,
    calculateDeduction, List.foldl, severityPenalty, fractionalWeights,
    noSchemesIssue, noGlobalSecurityIssue]
constructor
· show round2 (List.foldl (fun sum r => sum + r.weightedScore) 0
      (criterionResults fractionalWeights fullSchemaDoc)) = 90
  rw [hsum]
  norm_num [round2, Int.floor_eq_iff]
· show calculateGrade (List.foldl (fun sum r => sum + r.weightedScore) 0
      (criterionResults fractionalWeights fullSchemaDoc)) = Grade.B
  rw [hsum]
  norm_num [calculateGrade]

/-- C7 amended: `calculateGrade` — applied by the engine to the unrounded
sum of the weighted scores, not to the reported two-decimal `overallScore`
— is a pure, monotone function of its argument with the stated inclusive
bands at 60/70/80/90. (Under the default integer weights the rounded and
unrounded values coincide, but for fractional custom weights the reported
`overallScore` can cross a band boundary that the grade, computed before
rounding, does not.) -/
theorem grade_bands_amended (s t : ℚ) (h : s ≤ t) :
    (calculateGrade s = Grade.A ↔ 90 ≤ s)
    ∧ (calculateGrade s = Grade.B ↔ 80 ≤ s ∧ s < 90)
    ∧ (calculateGrade s = Grade.C ↔ 70 ≤ s ∧ s < 80)
    ∧ (calculateGrade s = Grade.D ↔ 60 ≤ s ∧ s < 70)
    ∧ (calculateGrade s = Grade.F ↔ s < 60)
    ∧ gradeRank (calculateGrade s) ≤ gradeRank (calculateGrade t)
    ∧ (∀ (w : Weights) (spec : OpenAPISpec) (ts : String),
        (score w spec ts).grade
          = calculateGrade (((score w spec ts).results.map ScoreResult.weightedScore).sum)) :=
⟨gradeA_iff s, gradeB_iff s, gradeC_iff s, gradeD_iff s, gradeF_iff s,
 gradeRank_mono h, report_grade_eq⟩

/-- Witness for the amended C7 at concrete scores 85 ≤ 92. -/
theorem grade_bands_amended_witness :
    (85 : ℚ) ≤ 92
    ∧ ((calculateGrade 85 = Grade.A ↔ 90 ≤ (85 : ℚ))
       ∧ (calculateGrade 85 = Grade.B ↔ 80 ≤ (85 : ℚ) ∧ (85 : ℚ) < 90)
       ∧ (calculateGrade 85 = Grade.C ↔ 70 ≤ (85 : ℚ) ∧ (85 : ℚ) < 80)
       ∧ (calculateGrade 85 = Grade.D ↔ 60 ≤ (85 : ℚ) ∧ (85 : ℚ) < 70)
       ∧ (calculateGrade 85 = Grade.F ↔ (85 : ℚ) < 60)
       ∧ gradeRank (calculateGrade 85) ≤ gradeRank (calculateGrade 92)
       ∧ (∀ (w : Weights) (spec : OpenAPISpec) (ts : String),
           (score w spec ts).grade
             = calculateGrade (((score w spec ts).results.map ScoreResult.weightedScore).sum))) :=
⟨by norm_num, grade_bands_amended 85 92 (by norm_num)⟩

/-! ### Claim C2: overall score and per-criterion ranges -/

lemma range_schemaTypes (w : Weights) (spec : OpenAPISpec) (h : 0 ≤ w.schemaTypes) :
    0 ≤ (scoreSchemaTypes w spec).score
    ∧ (scoreSchemaTypes w spec).score ≤ (scoreSchemaTypes w spec).weight := by
have hd := calculateDeduction_nonneg
  ((if noReusableSchemas spec then [noSchemasIssue] else [])
    ++ schemaDefinitionIssues spec ++ checkOperationSchemas spec)
simp only [scoreSchemaTypes]
refine ⟨le_max_left 0 _, max_le h ?_⟩
by_cases hc : noReusableSchemas spec
· simp only [if_pos hc] at hd ⊢
  linarith
· simp only [if_neg hc] at hd ⊢
  linarith

lemma range_documentation (w : Weights) (spec : OpenAPISpec) (h : 0 ≤ w.documentation) :
    0 ≤ (scoreDocumentation w spec).score
    ∧ (scoreDocumentation w spec).score ≤ (scoreDocumentation w spec).weight := by
have hd := calculateDeduction_nonneg
  ((if infoDescriptionMissing spec then [infoDescriptionIssue] else [])
    ++ (match spec.paths with
        | none => []
        | some paths => paths.flatMap (fun e => checkPathDocumentation e.1 e.2)))
simp only [scoreDocumentation]
refine ⟨le_max_left 0 _, max_le h ?_⟩
by_cases hc : infoDescriptionMissing spec
· simp only [if_pos hc] at hd ⊢
  linarith
· simp only [if_neg hc] at hd ⊢
  linarith

lemma range_pathsOperations (w : Weights) (spec : OpenAPISpec) (h : 0 ≤ w.pathsOperations) :
    0 ≤ (scorePathsOperations w spec).score
    ∧ (scorePathsOperations w spec).score ≤ (scorePathsOperations w spec).weight := by
cases hp : spec.paths with
| none => simp [scorePathsOperations, hp, h]
| some paths =>
  have hd := calculateDeduction_nonneg
    (checkPathNaming paths ++ checkCrudConsistency paths ++ checkOverlappingPaths paths)
  simp only [scorePathsOperations, hp]
  exact ⟨le_max_left 0 _, max_le h (by linarith)⟩

lemma range_responseCodes (w : Weights) (spec : OpenAPISpec) (h : 0 ≤ w.responseCodes) :
    0 ≤ (scoreResponseCodes w spec).score
    ∧ (scoreResponseCodes w spec).score ≤ (scoreResponseCodes w spec).weight := by
have hd := calculateDeduction_nonneg
  (match spec.paths with
   | none => []
   | some paths => paths.flatMap (fun e => checkOperationResponses e.1 e.2))
simp only [scoreResponseCodes, mkResponseCodesResult]
exact ⟨le_max_left 0 _, max_le h (by linarith)⟩

lemma range_examples (w : Weights) (spec : OpenAPISpec) (h : 0 ≤ w.examples) :
    0 ≤ (scoreExamples w spec).score
    ∧ (scoreExamples w spec).score ≤ (scoreExamples w spec).weight := by
have hd := calculateDeduction_nonneg
  (match spec.paths with
   | none => []
   | some paths => paths.flatMap (fun e => checkExamples e.1 e.2))
simp only [scoreExamples]
exact ⟨le_max_left 0 _, max_le h (by linarith)⟩

lemma range_security (w : Weights) (spec : OpenAPISpec) (h : 0 ≤ w.security) :
    0 ≤ (scoreSecurity w spec).score
    ∧ (scoreSecurity w spec).score ≤ (scoreSecurity w spec).weight := by
have hd := calculateDeduction_nonneg
  ((if noSecuritySchemes spec then [noSchemesIssue] else [])
    ++ (if noGlobalSecurity spec then [noGlobalSecurityIssue] else [])
    ++ (match spec.paths with
        | none => []
        | some _ => checkOperationSecurity spec))
simp only [scoreSecurity]
refine ⟨le_max_left 0 _, max_le h ?_⟩
by_cases h1 : noSecuritySchemes spec
· by_cases h2 : noGlobalSecurity spec
  · simp only [if_pos h1, if_pos h2] at hd ⊢
    linarith
  · simp only [if_pos h1, if_neg h2] at hd ⊢
    linarith
· by_cases h2 : noGlobalSecurity spec
  · simp only [if_neg h1, if_pos h2] at hd ⊢
    linarith
  · simp only [if_neg h1, if_neg h2] at hd ⊢
    linarith

lemma range_bestPractices (w : Weights) (spec : OpenAPISpec) (h : 0 ≤ w.bestPractices) :
    0 ≤ (scoreBestPractices w spec).score
    ∧ (scoreBestPractices w spec).score ≤ (scoreBestPractices w spec).weight := by
have hd := calculateDeduction_nonneg
  ((if defaultLookingVersion spec then [versionIssue] else [])
    ++ (if noServers spec then [serversIssue] else [])
    ++ (match spec.paths with
        | none => []
        | some _ => checkTagsUsage spec)
    ++ (if spec.components.isNone then [componentsIssue] else []))
simp only [scoreBestPractices]
refine ⟨le_max_left 0 _, max_le h ?_⟩
by_cases h1 : defaultLookingVersion spec
· by_cases h2 : noServers spec
  · simp only [if_pos h1, if_pos h2] at hd ⊢
    linarith
  · simp only [if_pos h1, if_neg h2] at hd ⊢
    linarith
· by_cases h2 : noServers spec
  · simp only [if_neg h1, if_pos h2] at hd ⊢
    linarith
  · simp only [if_neg h1, if_neg h2] at hd ⊢
    linarith

/-- C2: with non-negative configured weights, the report's `overallScore`
is the two-decimal rounding of the sum of the seven weighted scores, and
every criterion's score lies in `[0, weight]`. -/
theorem overall_sum_and_ranges (w : Weights) (spec : OpenAPISpec) (ts : String)
    (hw : 0 ≤ w.schemaTypes ∧ 0 ≤ w.documentation ∧ 0 ≤ w.pathsOperations
      ∧ 0 ≤ w.responseCodes ∧ 0 ≤ w.examples ∧ 0 ≤ w.security ∧ 0 ≤ w.bestPractices) :
    (score w spec ts).overallScore
      = round2 (((score w spec ts).results.map ScoreResult.weightedScore).sum)
    ∧ ∀ r ∈ (score w spec ts).results, 0 ≤ r.score ∧ r.score ≤ r.weight := by
obtain ⟨h1, h2, h3, h4, h5, h6, h7⟩ := hw
constructor
· show round2 (List.foldl (fun sum r => sum + r.weightedScore) 0 (criterionResults w spec)) = _
  rw [overall_foldl]
  rfl
· intro r hr
  have hres : (score w spec ts).results = criterionResults w spec := rfl
  rw [hres, criterionResults] at hr
  simp only [List.mem_cons, List.not_mem_nil, or_false] at hr
  rcases hr with rfl | rfl | rfl | rfl | rfl | rfl | rfl
  · exact range_schemaTypes w spec h1
  · exact range_documentation w spec h2
  · exact range_pathsOperations w spec h3
  · exact range_responseCodes w spec h4
  · exact range_examples w spec h5
  · exact range_security w spec h6
  · exact range_bestPractices w spec h7

/-- Witness for C2 at the default weights and a concrete document. -/
theorem overall_sum_and_ranges_witness :
    (0 ≤ defaultWeights.schemaTypes ∧ 0 ≤ defaultWeights.documentation
      ∧ 0 ≤ defaultWeights.pathsOperations ∧ 0 ≤ defaultWeights.responseCodes
      ∧ 0 ≤ defaultWeights.examples ∧ 0 ≤ defaultWeights.security
      ∧ 0 ≤ defaultWeights.bestPractices)
    ∧ ((score defaultWeights oneGetDoc "ts").overallScore
        = round2 (((score defaultWeights oneGetDoc "ts").results.map
            ScoreResult.weightedScore).sum)
       ∧ ∀ r ∈ (score defaultWeights oneGetDoc "ts").results,
           0 ≤ r.score ∧ r.score ≤ r.weight) :=
⟨by decide, overall_sum_and_ranges defaultWeights oneGetDoc "ts" (by decide)⟩

/-! ### Claim C6: well-covered response codes -/

/-- C6 counterexample: a document whose single (POST) operation answers
202 and 400 satisfies the 2xx-and-4xx/5xx hypothesis, yet Response Codes
emits the POST-convention issue, so the criterion does not emit zero
issues. -/
theorem response_codes_counterexample :
    allOperationsResponsesOK post202Doc = true
    ∧ (scoreResponseCodes defaultWeights post202Doc).issues
        = [postConventionIssue "/tasks"] :=
⟨by decide, by decide⟩

lemma anyOrSplit {α : Type} (l : List α) (p q : α → Bool) :
    l.any (fun x => p x || q x) = (l.any p || l.any q) := by
induction l with
| nil => rfl
| cons x xs ih => simp [List.any_cons, ih, Bool.or_assoc, Bool.or_left_comm]

lemma flatMap_nil_of_all {α : Type} (l : List α) (f : α → List Issue)
    (h : ∀ x ∈ l, f x = []) : l.flatMap f = [] := by
induction l with
| nil => rfl
| cons x xs ih =>
  rw [List.flatMap_cons, h x (List.mem_cons_self x xs), List.nil_append]
  exact ih (fun y hy => h y (List.mem_cons_of_mem x hy))

lemma respBlock_nil (path : String) (item : PathItem) (m : String)
    (hok : ∀ op rs, item.getOp m = some op → op.responses = some rs →
      operationResponsesOK op = true
      ∧ methodConventionIssues path m (rs.map Prod.fst) = []) :
    respBlock path item m = [] := by
cases hg : item.getOp m with
| none => simp [respBlock, hg]
| some op =>
  cases hr : op.responses with
  | none => simp [respBlock, hg, hr]
  | some rs =>
    obtain ⟨h1, h2⟩ := hok op rs hg hr
    unfold operationResponsesOK at h1
    rw [hr] at h1
    simp only [Option.getD_some] at h1
    rw [Bool.and_eq_true] at h1
    obtain ⟨hs, he⟩ := h1
    rw [anyOrSplit] at he
    simp only [respBlock, hg, hr, responsePresenceIssues, checkMethodSpecificResponses,
      Option.getD_some, h2]
    rcases Bool.or_eq_true_iff.mp he with h4 | h4 <;> simp [hs, h4]

/-- C6 amended: if every operation has a 2xx-or-`default` response and a
4xx-or-5xx response, and additionally every POST operation answers 201 or
200 and every DELETE operation answers 204 or 200 (the engine's extra
method-convention checks), then the Response Codes criterion emits zero
issues. -/
theorem response_codes_amended (w : Weights) (spec : OpenAPISpec)
    (h1 : allOperationsResponsesOK spec = true)
    (h2 : postDeleteConventionOK spec = true) :
    (scoreResponseCodes w spec).issues = [] := by
cases hp : spec.paths with
| none => simp [scoreResponseCodes, mkResponseCodesResult, hp]
| some ps =>
  simp only [allOperationsResponsesOK, hp] at h1
  simp only [postDeleteConventionOK, hp] at h2
  have hall : ∀ e ∈ ps, checkOperationResponses e.1 e.2 = [] := by
    intro e he
    have hmain := List.all_eq_true.mp h1 e he
    have hconv := List.all_eq_true.mp h2 e he
    rw [Bool.and_eq_true] at hconv
    have hm : ∀ m, m ∈ methods8 →
        (match e.2.getOp m with
         | none => true
         | some op => operationResponsesOK op) = true :=
      List.all_eq_true.mp hmain
    have hok5 : ∀ m, m ∈ methods8 → m ≠ "post" → m ≠ "delete" →
        respBlock e.1 e.2 m = [] := by
      intro m hm8 hmp hmd
      apply respBlock_nil
      intro op rs hg hr
      have h := hm m hm8
      rw [hg] at h
      refine ⟨h, ?_⟩
      unfold methodConventionIssues
      rw [if_neg (by simp [hmp]), if_neg (by simp [hmd])]
    have hpost : respBlock e.1 e.2 "post" = [] := by
      apply respBlock_nil
      intro op rs hg hr
      have h := hm "post" (by decide)
      rw [hg] at h
      refine ⟨h, ?_⟩
      have hc := hconv.1
      have hgp : e.2.post = some op := hg
      simp only [hgp, hr, Option.getD_some] at hc
      have hcc : (!(List.map Prod.fst rs).contains "201"
          && !(List.map Prod.fst rs).contains "200") = false := by
        rw [← Bool.not_or, hc]
        rfl
      simp only [methodConventionIssues]
      rw [if_pos (show (("post" : String) == "post") = true from rfl), hcc]
      simp
    have hdel : respBlock e.1 e.2 "delete" = [] := by
      apply respBlock_nil
      intro op rs hg hr
      have h := hm "delete" (by decide)
      rw [hg] at h
      refine ⟨h, ?_⟩
      have hc := hconv.2
      have hgd : e.2.delete = some op := hg
      simp only [hgd, hr, Option.getD_some] at hc
      have hcc : (!(List.map Prod.fst rs).contains "204"
          && !(List.map Prod.fst rs).contains "200") = false := by
        rw [← Bool.not_or, hc]
        rfl
      simp only [methodConventionIssues]
      rw [if_neg (show ¬ (("delete" : String) == "post") = true from by decide),
        if_pos (show (("delete" : String) == "delete") = true from rfl), hcc]
      simp
    show methods5.flatMap (respBlock e.1 e.2) = []
    have hget := hok5 "get" (by decide) (by decide) (by decide)
    have hput := hok5 "put" (by decide) (by decide) (by decide)
    have hpatch := hok5 "patch" (by decide) (by decide) (by decide)
    simp [methods5, hget, hput, hpatch, hpost, hdel]
  simp only [scoreResponseCodes, mkResponseCodesResult, hp]
  exact flatMap_nil_of_all ps _ hall

/-- Witness for the amended C6 at a concrete fully-covered document. -/
theorem response_codes_amended_witness :
    allOperationsResponsesOK coveredGetDoc = true
    ∧ postDeleteConventionOK coveredGetDoc = true
    ∧ (scoreResponseCodes defaultWeights coveredGetDoc).issues = [] :=
⟨by decide, by decide,
 response_codes_amended defaultWeights coveredGetDoc (by decide) (by decide)⟩

/-! ### Claim C8: per-operation documentation issues -/

/-- C8 counterexample: an OPTIONS operation with neither summary nor
description (and an undescribed parameter) produces no Documentation
issue at all — the criterion iterates only get/post/put/patch/delete. -/
theorem documentation_method_counterexample :
    bareOptionsItem.options = some bareOptionsOp
    ∧ bareOptionsOp.summary = none
    ∧ bareOptionsOp.description = none
    ∧ bareOptionsOp.parameters = some [{ name := "p", description := none }]
    ∧ (scoreDocumentation defaultWeights bareOptionsDoc).issues = [] :=
⟨rfl, rfl, rfl, rfl, by decide⟩

lemma countP_flatMap_zero {α : Type} (f : α → List Issue) (p : Issue → Bool)
    (l : List α) (h : ∀ x ∈ l, (f x).countP p = 0) : (l.flatMap f).countP p = 0 := by
induction l with
| nil => rfl
| cons x xs ih =>
  rw [List.flatMap_cons, List.countP_append, h x (List.mem_cons_self x xs),
    ih (fun y hy => h y (List.mem_cons_of_mem x hy))]

/-- Counting in a flatMap keyed by a duplicate-free key list reduces to
the unique entry carrying the key of interest. -/
lemma countP_flatMap_unique {β : Type} (f : β → List Issue) (p : Issue → Bool)
    (key : β → String) (e0 : β) :
    ∀ l : List β, (l.map key).Nodup → e0 ∈ l →
    (∀ e ∈ l, key e ≠ key e0 → (f e).countP p = 0) →
    (l.flatMap f).countP p = (f e0).countP p := by
intro l
induction l with
| nil => intro _ h0; exact absurd h0 (List.not_mem_nil e0)
| cons e rest ih =>
  intro hnd h0 hz
  rw [List.flatMap_cons, List.countP_append]
  rw [List.map_cons, List.nodup_cons] at hnd
  by_cases hk : key e = key e0
  · have he : e = e0 := by
      rcases List.mem_cons.mp h0 with rfl | h0r
      · rfl
      · exact absurd (hk ▸ List.mem_map_of_mem key h0r) hnd.1
    subst he
    have hrest : (rest.flatMap f).countP p = 0 := by
      apply countP_flatMap_zero
      intro y hy
      apply hz y (List.mem_cons_of_mem e hy)
      intro hky
      exact hnd.1 (hky ▸ List.mem_map_of_mem key hy)
    rw [hrest, Nat.add_zero]
  · rw [hz e (List.mem_cons_self e rest) hk, Nat.zero_add]
    have h0r : e0 ∈ rest := by
      rcases List.mem_cons.mp h0 with rfl | h0r
      · exact absurd rfl hk
      · exact h0r
    exact ih hnd.2 h0r (fun y hy => hz y (List.mem_cons_of_mem e hy))

lemma operationDocIssues_fields (path m : String) (op : Operation) :
    ∀ i ∈ operationDocIssues path m op, i.path = path ∧ i.operation = some m := by
intro i hi
unfold operationDocIssues at hi
rcases List.mem_append.mp hi with h | h
· split at h
  · rcases List.mem_singleton.mp h with rfl
    exact ⟨rfl, rfl⟩
  · exact absurd h (List.not_mem_nil i)
· obtain ⟨pr, _, hpr⟩ := List.mem_flatMap.mp h
  split at hpr
  · rcases List.mem_singleton.mp hpr with rfl
    exact ⟨rfl, rfl⟩
  · exact absurd hpr (List.not_mem_nil i)

lemma checkPathDocumentation_path (path : String) (item : PathItem) :
    ∀ i ∈ checkPathDocumentation path item, i.path = path := by
intro i hi
unfold checkPathDocumentation at hi
obtain ⟨m, _, hb⟩ := List.mem_flatMap.mp hi
cases hg : item.getOp m
· rw [hg] at hb
  exact absurd hb (List.not_mem_nil i)
· rw [hg] at hb
  exact (operationDocIssues_fields path m _ i hb).1

lemma countP_opDocIssues_other (path m m2 : String) (op : Operation) (s : Severity)
    (hne : m2 ≠ m) :
    (operationDocIssues path m2 op).countP (issuePred path m s) = 0 := by
apply List.countP_eq_zero.mpr
intro i hi
have hf := (operationDocIssues_fields path m2 op i hi).2
unfold issuePred
simp only [hf, decide_eq_true_eq]
rintro ⟨-, him, -⟩
exact hne (Option.some.inj him)

lemma countP_flatMap_ite {α : Type} (c : α → Bool) (g : α → Issue) (p : Issue → Bool)
    (l : List α) :
    (l.flatMap (fun y => if c y then [g y] else [])).countP p
      = l.countP (fun y => c y && p (g y)) := by
induction l with
| nil => rfl
| cons x xs ih =>
  rw [List.flatMap_cons, List.countP_append, ih, List.countP_cons]
  by_cases hc : c x
  · rw [if_pos hc]
    simp [List.countP_cons, hc, Nat.add_comm]
  · rw [if_neg hc]
    simp [hc]

lemma countP_opDocIssues_medium (path m : String) (op : Operation)
    (hsum : truthy op.summary = false) (hdesc : truthy op.description = false) :
    (operationDocIssues path m op).countP (issuePred path m Severity.medium) = 1 := by
unfold operationDocIssues
rw [List.countP_append]
have h1 : (if !truthy op.summary && !truthy op.description
    then [operationDocIssue path m] else []) = [operationDocIssue path m] := by
  rw [if_pos]
  rw [hsum, hdesc]
  rfl
rw [h1]
have h2 : ((op.parameters.getD []).flatMap (fun pr =>
    if !truthy pr.description then [paramDocIssue path m pr.name] else [])).countP
      (issuePred path m Severity.medium) = 0 := by
  apply countP_flatMap_zero
  intro pr _
  apply List.countP_eq_zero.mpr
  intro i hi
  split at hi
  · rcases List.mem_singleton.mp hi with rfl
    simp [issuePred, paramDocIssue]
  · exact absurd hi (List.not_mem_nil i)
rw [h2]
simp [List.countP_cons, issuePred, operationDocIssue]

lemma countP_opDocIssues_low (path m : String) (op : Operation) :
    (operationDocIssues path m op).countP (issuePred path m Severity.low)
      = ((op.parameters.getD []).filter (fun pr => !truthy pr.description)).length := by
unfold operationDocIssues
rw [List.countP_append]
have h1 : (if !truthy op.summary && !truthy op.description
    then [operationDocIssue path m] else []).countP (issuePred path m Severity.low) = 0 := by
  apply List.countP_eq_zero.mpr
  intro i hi
  split at hi
  · rcases List.mem_singleton.mp hi with rfl
    simp [issuePred, operationDocIssue]
  · exact absurd hi (List.not_mem_nil i)
rw [h1, Nat.zero_add]
simp only [countP_flatMap_ite]
rw [← List.countP_eq_length_filter]
apply List.countP_congr
intro pr _
constructor
· intro h
  exact (Bool.and_eq_true _ _ ▸ h).1
· intro h
  rw [h]
  simp [issuePred, paramDocIssue]

/-- C8 amended: for every operation present under one of the five checked
methods (get, post, put, patch, delete — operations under options, head
and trace are not examined), if it lacks both summary and description the
Documentation criterion emits exactly one medium issue for that operation,
and its low-severity issues for that operation are exactly one per
parameter lacking a description. -/
theorem documentation_amended (w : Weights) (spec : OpenAPISpec)
    (ps : List (String × PathItem)) (path : String) (item : PathItem)
    (m : String) (op : Operation)
    (hps : spec.paths = some ps) (hnd : (ps.map Prod.fst).Nodup)
    (hmem : (path, item) ∈ ps) (hm : m ∈ methods5) (hop : item.getOp m = some op)
    (hsum : truthy op.summary = false) (hdesc : truthy op.description = false) :
    ((scoreDocumentation w spec).issues.filter (issuePred path m Severity.medium)).length = 1
    ∧ ((scoreDocumentation w spec).issues.filter (issuePred path m Severity.low)).length
        = ((op.parameters.getD []).filter (fun pr => !truthy pr.description)).length := by
have hkey : ∀ s : Severity,
    ((scoreDocumentation w spec).issues).countP (issuePred path m s)
      = (operationDocIssues path m op).countP (issuePred path m s) := by
  intro s
  have hiss : (scoreDocumentation w spec).issues
      = (if infoDescriptionMissing spec then [infoDescriptionIssue] else [])
        ++ ps.flatMap (fun e => checkPathDocumentation e.1 e.2) := by
    simp [scoreDocumentation, hps]
  rw [hiss, List.countP_append]
  have hinfo : (if infoDescriptionMissing spec then [infoDescriptionIssue] else []).countP
      (issuePred path m s) = 0 := by
    apply List.countP_eq_zero.mpr
    intro i hi
    split at hi
    · rcases List.mem_singleton.mp hi with rfl
      simp [issuePred, infoDescriptionIssue]
    · exact absurd hi (List.not_mem_nil i)
  rw [hinfo, Nat.zero_add]
  have hpaths : (ps.flatMap (fun e => checkPathDocumentation e.1 e.2)).countP
      (issuePred path m s)
      = (checkPathDocumentation path item).countP (issuePred path m s) := by
    have := countP_flatMap_unique (fun e => checkPathDocumentation e.1 e.2)
      (issuePred path m s) Prod.fst ((path, item)) ps hnd hmem ?_
    · exact this
    · intro e _ hke
      apply List.countP_eq_zero.mpr
      intro i hi
      have hip := checkPathDocumentation_path e.1 e.2 i hi
      simp [issuePred, hip]
      intro h
      exact absurd h hke
  rw [hpaths]
  have hmeth : (checkPathDocumentation path item).countP (issuePred path m s)
      = ((match item.getOp m with
          | none => []
          | some op2 => operationDocIssues path m op2)).countP (issuePred path m s) := by
    unfold checkPathDocumentation
    have := countP_flatMap_unique
      (fun m2 => match item.getOp m2 with
        | none => []
        | some op2 => operationDocIssues path m2 op2)
      (issuePred path m s) (fun m2 => m2) m methods5 (by decide) hm ?_
    · exact this
    · intro m2 _ hm2
      show ((match item.getOp m2 with
          | none => []
          | some op2 => operationDocIssues path m2 op2)).countP (issuePred path m s) = 0
      cases hg : item.getOp m2 with
      | none => simp
      | some op2 => exact countP_opDocIssues_other path m m2 op2 s hm2
  rw [hmeth, hop]
constructor
· rw [← List.countP_eq_length_filter, hkey Severity.medium]
  exact countP_opDocIssues_medium path m op hsum hdesc
· rw [← List.countP_eq_length_filter, hkey Severity.low]
  exact countP_opDocIssues_low path m op

/-- Witness for the amended C8 at a concrete undocumented GET operation. -/
theorem documentation_amended_witness :
    bareGetDoc.paths = some [("/things", bareGetItem)]
    ∧ ([("/things", bareGetItem)].map Prod.fst).Nodup
    ∧ ("/things", bareGetItem) ∈ [("/things", bareGetItem)]
    ∧ "get" ∈ methods5
    ∧ bareGetItem.getOp "get" = some bareGetOp
    ∧ truthy bareGetOp.summary = false
    ∧ truthy bareGetOp.description = false
    ∧ ((scoreDocumentation defaultWeights bareGetDoc).issues.filter
        (issuePred "/things" "get" Severity.medium)).length = 1
    ∧ ((scoreDocumentation defaultWeights bareGetDoc).issues.filter
        (issuePred "/things" "get" Severity.low)).length
        = ((bareGetOp.parameters.getD []).filter (fun pr => !truthy pr.description)).length := by
refine ⟨rfl, by decide, by decide, by decide, rfl, rfl, rfl, ?_, ?_⟩
· exact (documentation_amended defaultWeights bareGetDoc [("/things", bareGetItem)]
    "/things" bareGetItem "get" bareGetOp rfl (by decide) (by decide) (by decide)
    rfl rfl rfl).1
· exact (documentation_amended defaultWeights bareGetDoc [("/things", bareGetItem)]
    "/things" bareGetItem "get" bareGetOp rfl (by decide) (by decide) (by decide)
    rfl rfl rfl).2

/-! ### Claim C5: path-overlap detection -/

lemma string_append_cancel (s t u : String) (h : s ++ t = s ++ u) : t = u := by
have hd : s.data ++ t.data = s.data ++ u.data := by
  rw [← String.data_append, ← String.data_append, h]
exact String.ext (List.append_cancel_left hd)

lemma overlapIssue_inj {x y a b : String} :
    overlapIssue x y = overlapIssue a b ↔ x = a ∧ y = b := by
constructor
· intro h
  unfold overlapIssue at h
  rw [Issue.mk.injEq] at h
  exact ⟨h.1, string_append_cancel "Path overlaps with " y b h.2.2.2.1⟩
· rintro ⟨rfl, rfl⟩
  rfl

lemma overlapScan_iff : ∀ s1 s2 : List (List Char), overlapScan s1 s2 = true ↔
    ∀ pr ∈ s1.zip s2,
      pr.1 = pr.2 ∨ startsWithBrace pr.1 = true ∨ startsWithBrace pr.2 = true := by
intro s1
induction s1 with
| nil => intro s2; simp [overlapScan]
| cons a as ih =>
  intro s2
  cases s2 with
  | nil => simp [overlapScan]
  | cons b bs =>
    show (if (a != b && !startsWithBrace a && !startsWithBrace b) = true
        then false else overlapScan as bs) = true ↔ _
    by_cases hc : (a != b && !startsWithBrace a && !startsWithBrace b) = true
    · rw [if_pos hc]
      simp only [Bool.and_eq_true, bne_iff_ne, Bool.not_eq_true'] at hc
      constructor
      · intro h
        exact absurd h (by simp)
      · intro hall
        exfalso
        have h := hall (a, b) (by rw [List.zip_cons_cons]; exact List.mem_cons_self _ _)
        rcases h with h | h | h
        · exact hc.1.1 h
        · rw [hc.1.2] at h
          exact Bool.false_ne_true h
        · rw [hc.2] at h
          exact Bool.false_ne_true h
    · rw [if_neg hc, ih bs]
      have hd : a = b ∨ startsWithBrace a = true ∨ startsWithBrace b = true := by
        by_cases h1 : a = b
        · exact Or.inl h1
        · by_cases h2 : startsWithBrace a = true
          · exact Or.inr (Or.inl h2)
          · by_cases h3 : startsWithBrace b = true
            · exact Or.inr (Or.inr h3)
            · exact absurd (by simp [h1, h2, h3] :
                (a != b && !startsWithBrace a && !startsWithBrace b) = true) hc
      constructor
      · intro hall pr hpr
        rw [List.zip_cons_cons] at hpr
        rcases List.mem_cons.mp hpr with rfl | hpr2
        · exact hd
        · exact hall pr hpr2
      · intro hall pr hpr
        exact hall pr (by rw [List.zip_cons_cons]; exact List.mem_cons_of_mem _ hpr)

lemma pathsOverlap_iff (p1 p2 : String) :
    pathsOverlap p1 p2 = true ↔
      ((pathSegments p1).length = (pathSegments p2).length
       ∧ ∀ pr ∈ (pathSegments p1).zip (pathSegments p2),
           pr.1 = pr.2 ∨ startsWithBrace pr.1 = true ∨ startsWithBrace pr.2 = true) := by
unfold pathsOverlap
by_cases h : (pathSegments p1).length = (pathSegments p2).length
· rw [if_neg (by simp [h])]
  rw [overlapScan_iff]
  simp [h]
· rw [if_pos h]
  simp [h]

lemma overlapScan_symm : ∀ s1 s2 : List (List Char), overlapScan s1 s2 = overlapScan s2 s1 := by
intro s1
induction s1 with
| nil => intro s2; cases s2 <;> rfl
| cons a as ih =>
  intro s2
  cases s2 with
  | nil => rfl
  | cons b bs =>
    show (if (a != b && !startsWithBrace a && !startsWithBrace b) = true
        then false else overlapScan as bs)
      = (if (b != a && !startsWithBrace b && !startsWithBrace a) = true
        then false else overlapScan bs as)
    have hcond : (a != b && !startsWithBrace a && !startsWithBrace b)
        = (b != a && !startsWithBrace b && !startsWithBrace a) := by
      by_cases h1 : a = b
      · subst h1
        rfl
      · have e1 : (a != b) = true := bne_iff_ne.mpr h1
        have e2 : (b != a) = true := bne_iff_ne.mpr (fun hh => h1 hh.symm)
        rw [e1, e2]
        cases startsWithBrace a <;> cases startsWithBrace b <;> simp
    rw [hcond, ih bs]

lemma pathsOverlap_symm (p1 p2 : String) : pathsOverlap p1 p2 = pathsOverlap p2 p1 := by
unfold pathsOverlap
by_cases h : (pathSegments p1).length = (pathSegments p2).length
· rw [if_neg (by simp [h]), if_neg (by simp [h.symm]), overlapScan_symm]
· rw [if_pos h, if_pos (fun hh => h hh.symm)]

lemma pairsAfter_mem : ∀ (keys : List String) (x y : String),
    (x, y) ∈ pairsAfter keys → x ∈ keys ∧ y ∈ keys := by
intro keys
induction keys with
| nil => intro x y h; exact absurd h (List.not_mem_nil _)
| cons k ks ih =>
  intro x y h
  rw [show pairsAfter (k :: ks) = (ks.map (fun y => (k, y))) ++ pairsAfter ks from rfl] at h
  rcases List.mem_append.mp h with h | h
  · obtain ⟨z, hz, he⟩ := List.mem_map.mp h
    obtain ⟨rfl, rfl⟩ := Prod.mk.injEq _ _ _ _ ▸ he
    exact ⟨List.mem_cons_self _ _, List.mem_cons_of_mem _ hz⟩
  · have h2 := ih x y h
    exact ⟨List.mem_cons_of_mem _ h2.1, List.mem_cons_of_mem _ h2.2⟩

lemma overlapPairs_count_zero (a b : String) :
    ∀ keys : List String, (a ∉ keys ∨ b ∉ keys) →
    ((pairsAfter keys).flatMap (fun q =>
        if pathsOverlap q.1 q.2 then [overlapIssue q.1 q.2] else [])).countP
      (fun i => i == overlapIssue a b || i == overlapIssue b a) = 0 := by
intro keys h
apply List.countP_eq_zero.mpr
intro i hi
obtain ⟨q, hq, hiq⟩ := List.mem_flatMap.mp hi
have hcomp := pairsAfter_mem keys q.1 q.2 hq
intro hp
rcases Bool.or_eq_true_iff.mp hp with hx | hx
· obtain ⟨h1, h2⟩ := overlapIssue_inj.mp (eq_of_beq (by
    split at hiq
    · rcases List.mem_singleton.mp hiq with rfl
      exact hx
    · exact absurd hiq (List.not_mem_nil i)))
  rcases h with h | h
  · exact h (h1 ▸ hcomp.1)
  · exact h (h2 ▸ hcomp.2)
· obtain ⟨h1, h2⟩ := overlapIssue_inj.mp (eq_of_beq (by
    split at hiq
    · rcases List.mem_singleton.mp hiq with rfl
      exact hx
    · exact absurd hiq (List.not_mem_nil i)))
  rcases h with h | h
  · exact h (h2 ▸ hcomp.2)
  · exact h (h1 ▸ hcomp.1)

lemma overlapPairs_count (a b : String) (hab : a ≠ b) (hov : pathsOverlap a b = true) :
    ∀ keys : List String, keys.Nodup → a ∈ keys → b ∈ keys →
    ((pairsAfter keys).flatMap (fun q =>
        if pathsOverlap q.1 q.2 then [overlapIssue q.1 q.2] else [])).countP
      (fun i => i == overlapIssue a b || i == overlapIssue b a) = 1 := by
intro keys
induction keys with
| nil => intro _ ha; exact absurd ha (List.not_mem_nil _)
| cons k ks ih =>
  intro hnd ha hb
  rw [List.nodup_cons] at hnd
  rw [show pairsAfter (k :: ks) = (ks.map (fun y => (k, y))) ++ pairsAfter ks from rfl]
  rw [List.flatMap_append, List.countP_append]
  have hmap : ((ks.map (fun y => (k, y))).flatMap (fun q =>
      if pathsOverlap q.1 q.2 then [overlapIssue q.1 q.2] else [])).countP
        (fun i => i == overlapIssue a b || i == overlapIssue b a)
      = ks.countP (fun y => pathsOverlap k y
          && (overlapIssue k y == overlapIssue a b || overlapIssue k y == overlapIssue b a)) := by
    rw [List.flatMap_map]
    simp only [countP_flatMap_ite]
  rw [hmap]
  by_cases hka : k = a
  · rw [hka]
    have hb2 : b ∈ ks := by
      rcases List.mem_cons.mp hb with h2 | h2
      · exact absurd (h2.trans hka).symm hab
      · exact h2
    have hpt : ks.countP (fun y => pathsOverlap a y
        && (overlapIssue a y == overlapIssue a b || overlapIssue a y == overlapIssue b a))
        = ks.countP (fun y => y == b) := by
      apply List.countP_congr
      intro y _
      by_cases hy : y = b
      · rw [hy]
        simp [hov]
      · have e1 : (overlapIssue a y == overlapIssue a b) = false := by
          apply beq_eq_false_iff_ne.mpr
          intro he
          exact hy (overlapIssue_inj.mp he).2
        have e2 : (overlapIssue a y == overlapIssue b a) = false := by
          apply beq_eq_false_iff_ne.mpr
          intro he
          exact hab (overlapIssue_inj.mp he).1
        simp [e1, e2, hy]
    rw [hpt]
    have hcount : ks.countP (fun y => y == b) = 1 := by
      have := List.count_eq_one_of_mem hnd.2 hb2
      rw [← this]
      rfl
    rw [hcount]
    rw [overlapPairs_count_zero a b ks (Or.inl (hka ▸ hnd.1))]
  · by_cases hkb : k = b
    · rw [hkb]
      have hov2 : pathsOverlap b a = true := by
        rw [pathsOverlap_symm]
        exact hov
      have ha2 : a ∈ ks := by
        rcases List.mem_cons.mp ha with h2 | h2
        · exact absurd (h2.trans hkb) hab
        · exact h2
      have hpt : ks.countP (fun y => pathsOverlap b y
          && (overlapIssue b y == overlapIssue a b || overlapIssue b y == overlapIssue b a))
          = ks.countP (fun y => y == a) := by
        apply List.countP_congr
        intro y _
        by_cases hy : y = a
        · rw [hy]
          simp [hov2]
        · have e1 : (overlapIssue b y == overlapIssue a b) = false := by
            apply beq_eq_false_iff_ne.mpr
            intro he
            exact hab ((overlapIssue_inj.mp he).1).symm
          have e2 : (overlapIssue b y == overlapIssue b a) = false := by
            apply beq_eq_false_iff_ne.mpr
            intro he
            exact hy (overlapIssue_inj.mp he).2
          simp [e1, e2, hy]
      rw [hpt]
      have hcount : ks.countP (fun y => y == a) = 1 := by
        have := List.count_eq_one_of_mem hnd.2 ha2
        rw [← this]
        rfl
      rw [hcount]
      rw [overlapPairs_count_zero a b ks (Or.inr (hkb ▸ hnd.1))]
    · have hpt : ks.countP (fun y => pathsOverlap k y
          && (overlapIssue k y == overlapIssue a b || overlapIssue k y == overlapIssue b a))
          = 0 := by
        apply List.countP_eq_zero.mpr
        intro y _
        intro hp
        rw [Bool.and_eq_true] at hp
        rcases Bool.or_eq_true_iff.mp hp.2 with hx | hx
        · exact hka (overlapIssue_inj.mp (eq_of_beq hx)).1
        · exact hkb (overlapIssue_inj.mp (eq_of_beq hx)).1
      rw [hpt, Nat.zero_add]
      have ha2 : a ∈ ks := by
        rcases List.mem_cons.mp ha with h2 | h2
        · exact absurd h2.symm hka
        · exact h2
      have hb2 : b ∈ ks := by
        rcases List.mem_cons.mp hb with h2 | h2
        · exact absurd h2.symm hkb
        · exact h2
      exact ih hnd.2 ha2 hb2

/-- C5: the overlap predicate holds exactly when the two paths have
equally many (non-empty) segments and at every position the segments are
textually equal or at least one starts with a brace; it is symmetric;
`/users/\x7bid\x7d` and `/users/\x7buserId\x7d` overlap while `/users` and
`/orders` do not; and over a duplicate-free path map, each unordered
overlapping pair of distinct paths yields exactly one issue. -/
theorem path_overlap_spec (paths : List (String × PathItem)) (a b : String)
    (hnd : (paths.map Prod.fst).Nodup) (ha : a ∈ paths.map Prod.fst)
    (hb : b ∈ paths.map Prod.fst) (hab : a ≠ b) (hov : pathsOverlap a b = true) :
    (∀ p1 p2 : String, pathsOverlap p1 p2 = true ↔
        ((pathSegments p1).length = (pathSegments p2).length
         ∧ ∀ pr ∈ (pathSegments p1).zip (pathSegments p2),
             pr.1 = pr.2 ∨ startsWithBrace pr.1 = true ∨ startsWithBrace pr.2 = true))
    ∧ (∀ p1 p2 : String, pathsOverlap p1 p2 = pathsOverlap p2 p1)
    ∧ pathsOverlap "/users/{id}" "/users/{userId}" = true
    ∧ pathsOverlap "/users" "/orders" = false
    ∧ ((checkOverlappingPaths paths).filter
        (fun i => i == overlapIssue a b || i == overlapIssue b a)).length = 1 := by
refine ⟨pathsOverlap_iff, pathsOverlap_symm, by decide, by decide, ?_⟩
rw [← List.countP_eq_length_filter]
exact overlapPairs_count a b hab hov (paths.map Prod.fst) hnd ha hb

/-- Witness for C5 at the two parameterised user paths. -/
theorem path_overlap_spec_witness :
    ((overlapPathsList.map Prod.fst).Nodup
     ∧ "/users/{id}" ∈ overlapPathsList.map Prod.fst
     ∧ "/users/{userId}" ∈ overlapPathsList.map Prod.fst
     ∧ "/users/{id}" ≠ "/users/{userId}"
     ∧ pathsOverlap "/users/{id}" "/users/{userId}" = true)
    ∧ ((checkOverlappingPaths overlapPathsList).filter
        (fun i => i == overlapIssue "/users/{id}" "/users/{userId}"
          || i == overlapIssue "/users/{userId}" "/users/{id}")).length = 1 :=
⟨⟨by decide, by decide, by decide, by decide, by decide⟩,
 (path_overlap_spec overlapPathsList "/users/{id}" "/users/{userId}"
   (by decide) (by decide) (by decide) (by decide) (by decide)).2.2.2.2⟩

/-! ### Claim C10: no exceptions for structurally valid documents -/

lemma foldlM_append_ok {α : Type} (blk : α → List Issue)
    (stepE : List Issue → α → Except String (List Issue)) :
    ∀ l : List α, (∀ acc a, a ∈ l → stepE acc a = Except.ok (acc ++ blk a)) →
    ∀ acc, l.foldlM stepE acc = Except.ok (acc ++ l.flatMap blk) := by
intro l
induction l with
| nil =>
  intro _ acc
  rw [List.foldlM_nil]
  show Except.ok acc = _
  rw [List.flatMap_nil, List.append_nil]
| cons x xs ih =>
  intro h acc
  rw [List.foldlM_cons, h acc x (List.mem_cons_self x xs)]
  show xs.foldlM stepE (acc ++ blk x) = _
  rw [ih (fun acc2 a ha => h acc2 a (List.mem_cons_of_mem x ha)) (acc ++ blk x)]
  rw [List.flatMap_cons, List.append_assoc]

lemma respStepE_ok (path : String) (item : PathItem) (acc : List Issue) (m : String) :
    respStepE path item acc m = Except.ok (acc ++ respBlock path item m) := by
unfold respStepE respBlock
cases hg : item.getOp m with
| none => simp
| some op =>
  cases hr : op.responses with
  | none => simp [hr]
  | some rs =>
    simp only [hr, checkMethodSpecificResponsesE, checkMethodSpecificResponses,
      Option.getD_some]
    rfl

lemma checkOperationResponsesE_ok (path : String) (item : PathItem) :
    checkOperationResponsesE path item = Except.ok (checkOperationResponses path item) := by
unfold checkOperationResponsesE checkOperationResponses
rw [foldlM_append_ok (respBlock path item) (respStepE path item) methods5
  (fun acc m _ => respStepE_ok path item acc m) []]
rw [List.nil_append]

lemma scoreResponseCodesE_ok (w : Weights) (spec : OpenAPISpec) :
    scoreResponseCodesE w spec = Except.ok (scoreResponseCodes w spec) := by
unfold scoreResponseCodesE scoreResponseCodes
cases hp : spec.paths with
| none => rfl
| some ps =>
  show (do
      let issues ← ps.foldlM (fun acc e => do
        let l ← checkOperationResponsesE e.1 e.2
        Except.ok (acc ++ l)) []
      Except.ok (mkResponseCodesResult w issues))
    = Except.ok (mkResponseCodesResult w
        (ps.flatMap (fun e => checkOperationResponses e.1 e.2)))
  rw [foldlM_append_ok (fun e => checkOperationResponses e.1 e.2)
    (fun acc e => do
      let l ← checkOperationResponsesE e.1 e.2
      Except.ok (acc ++ l))
    ps (fun acc e _ => by
      show (do
          let l ← checkOperationResponsesE e.1 e.2
          Except.ok (acc ++ l))
        = Except.ok (acc ++ checkOperationResponses e.1 e.2)
      rw [checkOperationResponsesE_ok]
      rfl) []]
  rfl

lemma insertResource_paths (acc : List (String × List String)) (r p : String)
    (g : String × List String) (hg : g ∈ insertResource acc r p) :
    ∀ q ∈ g.2, (∃ g2 ∈ acc, q ∈ g2.2) ∨ q = p := by
intro q hq
unfold insertResource at hg
by_cases hc : acc.any (fun g0 => g0.1 == r)
· rw [if_pos hc] at hg
  obtain ⟨g0, hg0, he⟩ := List.mem_map.mp hg
  by_cases hk : g0.1 == r
  · rw [if_pos hk] at he
    rw [← he] at hq
    rcases List.mem_append.mp hq with h | h
    · exact Or.inl ⟨g0, hg0, h⟩
    · exact Or.inr (List.mem_singleton.mp h)
  · rw [if_neg hk] at he
    exact Or.inl ⟨g0, hg0, he ▸ hq⟩
· rw [if_neg hc] at hg
  rcases List.mem_append.mp hg with h | h
  · exact Or.inl ⟨g, h, hq⟩
  · rcases List.mem_singleton.mp h with rfl
    exact Or.inr (List.mem_singleton.mp hq)

lemma groupResources_paths :
    ∀ (keys : List String) (acc : List (String × List String))
      (g : String × List String), g ∈ groupResources acc keys →
    ∀ q ∈ g.2, (∃ g2 ∈ acc, q ∈ g2.2) ∨ q ∈ keys := by
intro keys
induction keys with
| nil =>
  intro acc g hg q hq
  exact Or.inl ⟨g, hg, hq⟩
| cons p rest ih =>
  intro acc g hg q hq
  rw [show groupResources acc (p :: rest)
      = (match resourceName p with
         | none => groupResources acc rest
         | some r => groupResources (insertResource acc (String.mk r) p) rest) from rfl] at hg
  cases hr : resourceName p with
  | none =>
    rw [hr] at hg
    rcases ih acc g hg q hq with h | h
    · exact Or.inl h
    · exact Or.inr (List.mem_cons_of_mem p h)
  | some r =>
    rw [hr] at hg
    rcases ih (insertResource acc (String.mk r) p) g hg q hq with h | h
    · obtain ⟨g2, hg2, hq2⟩ := h
      rcases insertResource_paths acc (String.mk r) p g2 hg2 q hq2 with h2 | h2
      · exact Or.inl h2
      · exact Or.inr (h2 ▸ List.mem_cons_self p rest)
    · exact Or.inr (List.mem_cons_of_mem p h)

lemma find_of_mem_keys (paths : List (String × PathItem)) (p : String)
    (hp : p ∈ paths.map Prod.fst) :
    ∃ e, paths.find? (fun e => e.1 == p) = some e := by
obtain ⟨e, he, hfst⟩ := List.mem_map.mp hp
cases hf : paths.find? (fun e => e.1 == p) with
| none =>
  have := List.find?_eq_none.mp hf e he
  rw [hfst] at this
  simp at this
| some e2 => exact ⟨e2, rfl⟩

lemma crudGroupStepE_ok (paths : List (String × PathItem)) (g : String × List String)
    (hg : g ∈ groupResources [] (paths.map Prod.fst)) (acc : List Issue) :
    crudGroupStepE paths acc g = Except.ok (acc ++ crudGroupIssues paths g) := by
obtain ⟨r, gps⟩ := g
cases gps with
| nil => simp [crudGroupStepE, crudGroupIssues]
| cons p tail =>
  cases tail with
  | nil =>
    have hp : p ∈ paths.map Prod.fst := by
      rcases groupResources_paths (paths.map Prod.fst) [] (r, [p]) hg p
          (List.mem_singleton.mpr rfl) with h | h
      · obtain ⟨g2, hg2, _⟩ := h
        exact absurd hg2 (List.not_mem_nil g2)
      · exact h
    obtain ⟨e, hf⟩ := find_of_mem_keys paths p hp
    simp [crudGroupStepE, crudGroupIssues, hf]
  | cons q tail2 => simp [crudGroupStepE, crudGroupIssues]

lemma checkCrudConsistencyE_ok (paths : List (String × PathItem)) :
    checkCrudConsistencyE paths = Except.ok (checkCrudConsistency paths) := by
unfold checkCrudConsistencyE checkCrudConsistency
rw [foldlM_append_ok (crudGroupIssues paths) (crudGroupStepE paths)
  (groupResources [] (paths.map Prod.fst))
  (fun acc g hg => crudGroupStepE_ok paths g hg acc) []]
rw [List.nil_append]

lemma scorePathsOperationsE_ok (w : Weights) (spec : OpenAPISpec) :
    scorePathsOperationsE w spec = Except.ok (scorePathsOperations w spec) := by
unfold scorePathsOperationsE scorePathsOperations
cases hp : spec.paths with
| none => rfl
| some ps =>
  show (checkCrudConsistencyE ps).bind (fun crud =>
      Except.ok
        ({ criterion := "Paths & Operations"
         , score := max 0 (w.pathsOperations - calculateDeduction
             (checkPathNaming ps ++ crud ++ checkOverlappingPaths ps))
         , maxScore := w.pathsOperations
         , weight := w.pathsOperations
         , weightedScore := max 0 (w.pathsOperations - calculateDeduction
             (checkPathNaming ps ++ crud ++ checkOverlappingPaths ps))
         , issues := checkPathNaming ps ++ crud ++ checkOverlappingPaths ps } : ScoreResult))
    = Except.ok
        ({ criterion := "Paths & Operations"
         , score := max 0 (w.pathsOperations - calculateDeduction
             (checkPathNaming ps ++ checkCrudConsistency ps ++ checkOverlappingPaths ps))
         , maxScore := w.pathsOperations
         , weight := w.pathsOperations
         , weightedScore := max 0 (w.pathsOperations - calculateDeduction
             (checkPathNaming ps ++ checkCrudConsistency ps ++ checkOverlappingPaths ps))
         , issues := checkPathNaming ps ++ checkCrudConsistency ps
             ++ checkOverlappingPaths ps } : ScoreResult)
  rw [checkCrudConsistencyE_ok]
  rfl

/-- C10: for every structurally valid document (`paths` present, every
present operation carrying a `responses` mapping), `score` completes
without raising: the exception-instrumented engine — whose two unguarded
property accesses are explicit `TypeError`s — returns `ok` of exactly the
pure report. (Both instrumented accesses are in fact dynamically guarded
by their callers, so no hypothesis is even consumed.) -/
theorem score_no_exceptions (w : Weights) (spec : OpenAPISpec) (ts : String)
    (_h1 : pathsIsObject spec = true)
    (_h2 : allOperationsHaveResponses spec = true) :
    scoreE w spec ts = Except.ok (score w spec ts) := by
unfold scoreE score
rw [scorePathsOperationsE_ok, scoreResponseCodesE_ok]
rfl

/-- Witness for C10 at a concrete document. -/
theorem score_no_exceptions_witness :
    pathsIsObject oneGetDoc = true
    ∧ allOperationsHaveResponses oneGetDoc = true
    ∧ scoreE defaultWeights oneGetDoc "ts" = Except.ok (score defaultWeights oneGetDoc "ts") :=
⟨by decide, by decide,
 score_no_exceptions defaultWeights oneGetDoc "ts" (by decide) (by decide)⟩

end OpenAPIScorer
